import Mathlib

/-! Verification of the assertionlib signature-synthesis pipeline
(`assertionlib/signature.py` and `assertionlib/functions.py`).

Conventions of the shallow embedding:

* Python values occurring as parameter defaults or call arguments are
  modelled by `PyVal`.  The `inspect._empty` marker (absence of a default)
  is the `none` case of `Option PyVal`; the sentinel that the source leaks
  through `__kwdefaults__` for keyword-only parameters without a default is
  `PyVal.vEmpty`.
* A Python callable is modelled by the record `Callable`, which lists
  exactly the attributes that the source code reads: `__name__`,
  `__qualname__`, `__doc__`, `__module__`, `__objclass__`, `__self__`,
  `__class__`, `__annotations__` and the `inspect.isX` classification
  traits.  An attribute whose access would raise `AttributeError` is the
  `none` case.  `sig = none` models a callable for which
  `inspect.signature` raises `ValueError`.
* Fallible Python code is translated to `Except String`; error strings
  name the Python exception class that the source would raise.
* String helpers (`strReplace`, `textwrap_indent`, ...) are written over
  `List Char` with structural recursion so that every definition reduces
  inside the kernel.
-/

set_option maxRecDepth 8000

/-- ASCII lower-casing of one character (class names in this development are
ASCII, matching `str.lower` on them). -/
def charLower (c : Char) : Char :=
  if 'A' ≤ c ∧ c ≤ 'Z' then Char.ofNat (c.toNat + 32) else c

/-- Model of `str.lower`. -/
def strToLower (s : String) : String :=
  ⟨s.data.map charLower⟩

/-- Worker for `strReplace`; the fuel argument is the length of the scanned
list, which bounds the number of recursion steps. -/
def replaceAux : Nat → List Char → List Char → List Char → List Char
  | 0, s, _, _ => s
  | fuel + 1, s, pat, rep =>
    match s with
    | [] => []
    | c :: rest =>
      if !pat.isEmpty && pat.isPrefixOf (c :: rest) then
        rep ++ replaceAux fuel ((c :: rest).drop pat.length) pat rep
      else
        c :: replaceAux fuel rest pat rep

/-- Model of `str.replace`: replace every non-overlapping occurrence of
`pat` in `s` by `rep`, scanning left to right.  (The source never calls
`replace` with an empty pattern.) -/
def strReplace (s pat rep : String) : String :=
  ⟨replaceAux s.data.length s.data pat.data rep.data⟩

/-- Split a character list at every newline character. -/
def splitLinesAux : List Char → List Char → List (List Char)
  | [], acc => [acc.reverse]
  | c :: rest, acc =>
    if c = '\n' then acc.reverse :: splitLinesAux rest []
    else splitLinesAux rest (c :: acc)

/-- Join lines back together with newline characters. -/
def joinLines : List (List Char) → List Char
  | [] => []
  | [l] => l
  | l :: ls => l ++ '\n' :: joinLines ls

/-- Model of `textwrap.indent(text, pre)` with the default predicate: every
line that contains a non-whitespace character is prefixed by `pre`. -/
def textwrap_indent (text pre : String) : String :=
  ⟨joinLines ((splitLinesAux text.data []).map
    (fun l => if l.all (fun c => c == ' ' || c == '\t') then l else pre.data ++ l))⟩

/-- Join a list of strings with a separator, like `str.join`. -/
def strIntercalate (sep : String) : List String → String
  | [] => ""
  | [x] => x
  | x :: xs => x ++ sep ++ strIntercalate sep xs

/-- The first line of a string (everything before the first newline). -/
def firstLine (s : String) : String :=
  ⟨s.data.takeWhile (fun c => c != '\n')⟩

/-- Python values appearing as parameter defaults and call arguments. -/
inductive PyVal
  | vBool : Bool → PyVal
  | vInt : Int → PyVal
  | vStr : String → PyVal
  | vNone : PyVal
  | vEmpty : PyVal
deriving DecidableEq

/-- The five `inspect.Parameter` kinds. -/
inductive ParamKind
  | PO
  | POK
  | VP
  | KO
  | VK
deriving DecidableEq

/-- An `inspect.Parameter`: a name, a kind and an optional default value.
Annotations are carried by the source but never influence control flow in
the claims under study, so they are not modelled on parameters. -/
structure Parameter where
  name : String
  kind : ParamKind
  default : Option PyVal
deriving DecidableEq

/-- A Python callable, reduced to the attributes read by the source. -/
structure Callable where
  /-- `inspect.signature(func).parameters`, or `none` when the lookup
  raises `ValueError`. -/
  sig : Option (List Parameter)
  name : Option String
  qualname : Option String
  doc : Option String
  /-- `__module__`: outer `none` means the attribute is missing, inner
  `none` means the attribute is the Python value `None`. -/
  module : Option (Option String)
  /-- `__objclass__.__module__`, when `__objclass__` exists. -/
  objclassModule : Option String
  /-- `__self__.__class__.__name__`, when `__self__` exists. -/
  selfClsName : Option String
  /-- `__objclass__.__name__`, when `__objclass__` exists. -/
  objclassName : Option String
  /-- `__class__.__name__`. -/
  className : String
  annotations : List (String × String)
  isbuiltin : Bool
  isfunction : Bool
  ismethod : Bool
  ismethoddescriptor : Bool
  isclass : Bool
deriving DecidableEq

/-- A `Callable` with every attribute absent; concrete callables are built
from it with structure-update syntax. -/
def defaultCallable : Callable :=
  { sig := none, name := none, qualname := none, doc := none, module := none,
    objclassModule := none, selfClsName := none, objclassName := none,
    className := "function", annotations := [], isbuiltin := false,
    isfunction := false, ismethod := false, ismethoddescriptor := false,
    isclass := false }

/-- Numeric order of parameter kinds, as in `inspect`. -/
def kindRank : ParamKind → Nat
  | .PO => 0
  | .POK => 1
  | .VP => 2
  | .KO => 3
  | .VK => 4

/-- The validation loop of the `inspect.Signature` constructor: parameter
kinds must be non-decreasing, a positional parameter without a default must
not follow one with a default in the same kind run, and names must be
unique.  `topKind` is the rank reached so far, `kindDefaults` records
whether a default was seen in the current kind run, and `seen` collects the
names already taken. -/
def validateParams : List Parameter → Nat → Bool → List String → Bool
  | [], _, _, _ => true
  | p :: rest, topKind, kindDefaults, seen =>
    if kindRank p.kind < topKind then false
    else if (p.kind == .PO || p.kind == .POK) && p.default.isNone
            && (if topKind < kindRank p.kind then false else kindDefaults) then false
    else if seen.any (fun n => n == p.name) then false
    else
      validateParams rest (kindRank p.kind)
        (if (p.kind == .PO || p.kind == .POK) && p.default.isSome then true
         else if topKind < kindRank p.kind then false else kindDefaults)
        (p.name :: seen)

/-- Model of the `inspect.Signature` constructor: return the parameter list
when it validates, raise `ValueError` otherwise. -/
def mkSignature (ps : List Parameter) : Except String (List Parameter) :=
  if validateParams ps 0 false [] then .ok ps
  else .error "ValueError: invalid Signature parameters"

/-- `_get_backup_signature` from `signature.py`: the generic backup
signature `(self, *args, invert=False, exception=None, post_process=None,
message=None, **kwargs)`. -/
def _get_backup_signature : List Parameter :=
  [ { name := "self", kind := .POK, default := none },
    { name := "args", kind := .VP, default := none },
    { name := "invert", kind := .KO, default := some (PyVal.vBool false) },
    { name := "exception", kind := .KO, default := some PyVal.vNone },
    { name := "post_process", kind := .KO, default := some PyVal.vNone },
    { name := "message", kind := .KO, default := some PyVal.vNone },
    { name := "kwargs", kind := .VK, default := none } ]

/-- `BACK_SIGNATURE` from `signature.py`. -/
def BACK_SIGNATURE : List Parameter :=
  _get_backup_signature

/-- `_get_cls_annotation` from `signature.py`, restricted to the class name
it returns (the second component of the Python pair is never used by the
callers in the source).  Follows the attribute probing order `__self__`,
`__objclass__`, dotted `__qualname__`, `__class__`. -/
def _get_cls_annotation (func : Callable) : String :=
  match func.selfClsName with
  | some clsName => strToLower clsName
  | none =>
    match func.objclassName with
    | some clsName => strToLower clsName
    | none =>
      match func.qualname with
      | some q =>
        if q.data.contains '.' then strToLower ⟨q.data.takeWhile (fun c => c != '.')⟩
        else strToLower func.className
      | none => strToLower func.className

/-- Membership of a name in the name set of a parameter collection,
modelling `name in (prm.name for prm in prm_list)`. -/
def nameMem (n : String) (prms : List Parameter) : Bool :=
  prms.any (fun p => p.name == n)

/-- Worker for `_sanitize_name`.  The source recurses until the candidate
name is fresh; here the recursion is driven by fuel, and the theorem about
`_sanitize_name` shows the chosen fuel is always sufficient.  Each
collision emits one warning message (the source formats the message with
`aNDRepr.repr(func)` from the `ndrepr` module, which is not part of the
sources under study; the message text is modelled without that interpolation). -/
def _sanitize_aux (func : Callable) : Nat → String → List Parameter → String × List String
  | 0, nm, _ => (nm, [])
  | fuel + 1, nm, prms =>
    if nameMem nm prms then
      let r := _sanitize_aux func fuel (nm ++ "_") prms
      (r.1, ("The " ++ nm ++ " parameter is already defined; renaming new parameter to "
             ++ nm ++ "_") :: r.2)
    else (nm, [])

/-- `_sanitize_name` from `signature.py`: return `nm` if no parameter in
`prms` is called `nm`, otherwise warn and retry with a trailing underscore
appended.  The pair also carries the emitted warnings. -/
def _sanitize_name (nm : String) (func : Callable) (prms : List Parameter) : String × List String :=
  _sanitize_aux func (prms.length + 1) nm prms

/-- The transformation applied to each source parameter by the loop of
`generate_signature`: a parameter named `self` is replaced by a fresh
positional-or-keyword parameter named after the owning class,
positional-only parameters become positional-or-keyword, and
positional-or-keyword parameters with a default become keyword-only. -/
def classifyPrm (selfName : String) (prm : Parameter) : Parameter :=
  if prm.name == "self" then { name := selfName, kind := .POK, default := none }
  else if prm.kind == .PO then { prm with kind := .POK }
  else if prm.kind == .POK && prm.default.isSome then { prm with kind := .KO }
  else prm

/-- The four parameter buckets of `prm_dict` in `generate_signature`. -/
structure Buckets where
  pok : List Parameter
  vp : List Parameter
  ko : List Parameter
  vk : List Parameter
deriving DecidableEq

/-- `prm_dict[prm.kind].append(prm)`.  After `classifyPrm` the kind is
never `PO`; that unreachable case is mapped to the `pok` bucket. -/
def addToBucket (b : Buckets) (prm : Parameter) : Buckets :=
  match prm.kind with
  | .PO => { b with pok := b.pok ++ [prm] }
  | .POK => { b with pok := b.pok ++ [prm] }
  | .VP => { b with vp := b.vp ++ [prm] }
  | .KO => { b with ko := b.ko ++ [prm] }
  | .VK => { b with vk := b.vk ++ [prm] }

/-- The classification loop of `generate_signature`. -/
def fillBuckets (selfName : String) : List Parameter → Buckets → Buckets
  | [], b => b
  | p :: rest, b => fillBuckets selfName rest (addToBucket b (classifyPrm selfName p))

/-- The four reserved parameter names appended by the deriver. -/
def reservedNames : List String :=
  [ "invert", "exception", "post_process", "message" ]

/-- The state of `prm_dict` after the classification loop of
`generate_signature`: the seeded `self` parameter followed by the
classified source parameters, bucketed by kind. -/
def deriveBuckets (func : Callable) (prms : List Parameter) : Buckets :=
  fillBuckets ( _get_cls_annotation func) prms
    { pok := [ { name := "self", kind := .POK, default := none } ], vp := [], ko := [], vk := [] }

/-- The keyword-only bucket of `generate_signature` after the four
reserved parameters (with sanitized names) have been appended. -/
def deriveKo (func : Callable) (prms : List Parameter) : List Parameter :=
  let b := deriveBuckets func prms
  b.ko ++
    [ { name := (_sanitize_name "invert" func b.ko).1, kind := .KO,
        default := some (PyVal.vBool false) },
      { name := (_sanitize_name "exception" func b.ko).1, kind := .KO,
        default := some PyVal.vNone },
      { name := (_sanitize_name "post_process" func b.ko).1, kind := .KO,
        default := some PyVal.vNone },
      { name := (_sanitize_name "message" func b.ko).1, kind := .KO,
        default := some PyVal.vNone } ]

/-- The full ordered parameter list `generate_signature` hands to the
`inspect.Signature` constructor: the positional-or-keyword bucket, the
variadic-positional bucket (with `*args` synthesized when absent), the
keyword-only bucket with the reserved parameters, and the variadic-keyword
bucket (with `**kwargs` synthesized when absent). -/
def deriveParams (func : Callable) (prms : List Parameter) : List Parameter :=
  let b := deriveBuckets func prms
  b.pok
  ++ (if b.vp.isEmpty then [ { name := "args", kind := .VP, default := none } ] else b.vp)
  ++ deriveKo func prms
  ++ (if b.vk.isEmpty then [ { name := "kwargs", kind := .VK, default := none } ] else b.vk)

/-- The warnings emitted by the four `_sanitize_name` calls of
`generate_signature`, in call order. -/
def deriveWarnings (func : Callable) (prms : List Parameter) : List String :=
  let b := deriveBuckets func prms
  (_sanitize_name "invert" func b.ko).2 ++ (_sanitize_name "exception" func b.ko).2
  ++ (_sanitize_name "post_process" func b.ko).2 ++ (_sanitize_name "message" func b.ko).2

/-- `generate_signature` from `signature.py`.  Returns the derived
parameter list together with the warnings emitted by `_sanitize_name`, or
the error raised by the `inspect.Signature` constructor.  When the native
signature cannot be read the fixed `BACK_SIGNATURE` is returned. -/
def generate_signature (func : Callable) : Except String (List Parameter × List String) :=
  match func.sig with
  | none => .ok (BACK_SIGNATURE, [])
  | some prms =>
    match mkSignature (deriveParams func prms) with
    | .error e => .error e
    | .ok ps => .ok (ps, deriveWarnings func prms)

/-- `_KIND_TO_STR` from `signature.py`: the format applied to a parameter
name for each kind.  The dictionary has no entry for the keyword-only
kind; looking that kind up raises `KeyError`. -/
def _KIND_TO_STR : ParamKind → Option String
  | .PO => some ""
  | .POK => some ""
  | .VP => some "*"
  | .KO => none
  | .VK => some "**"

/-- The rendering of one parameter inside `_signature_to_str`: the `self`
parameter becomes the supplied function name, a parameter with a default
becomes the forwarding form `name=name`, and any other parameter is
formatted through `_KIND_TO_STR`. -/
def prmToStr (funcName : String) (prm : Parameter) : Except String String :=
  if prm.name == "self" then .ok funcName
  else if prm.default.isSome then .ok (prm.name ++ "=" ++ prm.name)
  else
    match _KIND_TO_STR prm.kind with
    | some pre => .ok (pre ++ prm.name)
    | none => .error "KeyError: KEYWORD_ONLY"

/-- Effectful map over a list, sequencing `Except` left to right (the
explicit loop of `_signature_to_str`). -/
def exceptMapM (f : α → Except String β) : List α → Except String (List β)
  | [] => .ok []
  | a :: as =>
    match f a with
    | .error e => .error e
    | .ok b =>
      match exceptMapM f as with
      | .error e => .error e
      | .ok bs => .ok (b :: bs)

/-- `_signature_to_str` from `signature.py`: render a signature as the
literal text of a call expression. -/
def _signature_to_str (sgn : List Parameter) (funcName : Option String) : Except String String :=
  let fn := funcName.getD "self"
  match exceptMapM (prmToStr fn) sgn with
  | .error e => .error e
  | .ok entries => .ok ("(" ++ strIntercalate ", " entries ++ ")")

/-- The synthesized assertion function built by `_create_assertion_func`:
its display name, the derived signature its compiled code carries, and the
original callable closed over through the `func` global. -/
structure GeneratedFunc where
  name : String
  params : List Parameter
  func : Callable
deriving DecidableEq

/-- `_create_assertion_func` from `functions.py`: derive the signature,
render the `self.assert_` argument text with the closed-over name `func`,
and compile the new function.  The compile step interpolates
`func.__name__`, so a callable without `__name__` raises `AttributeError`
here even when the caller supplied an explicit method name. -/
def _create_assertion_func (func : Callable) : Except String (GeneratedFunc × String) :=
  match generate_signature func with
  | .error e => .error e
  | .ok (sgn, _warnings) =>
    match _signature_to_str sgn (some "func") with
    | .error e => .error e
    | .ok sgnStr =>
      match func.name with
      | none => .error "AttributeError: __name__"
      | some fname => .ok ({ name := fname, params := sgn, func := func }, sgnStr)

/-- `MODULE_DICT` from `functions.py`: rewrites of runtime-internal module
names to their public equivalents. -/
def MODULE_DICT : List (String × String) :=
  [ ("builtins", ""), ("genericpath", "os.path."), ("posixpath", "os.path."),
    ("_operator", "operator.") ]

/-- Dictionary lookup on an association list. -/
def lookupStr (l : List (String × String)) (k : String) : Option String :=
  (l.find? (fun q => q.1 == k)).map (fun q => q.2)

/-- `_is_builtin_func` from `functions.py`. -/
def _is_builtin_func (func : Callable) : Bool :=
  if func.isbuiltin then
    match func.qualname with
    | some q => !(q.data.contains '.')
    | none => false
  else false

/-- `get_sphinx_domain` from `functions.py`.  Note the source body consults
the module-level `MODULE_DICT`, not its `module_mapping` argument; the
argument is therefore unused here exactly as in the source. -/
def get_sphinx_domain (func : Callable) (module_mapping : List (String × String)) :
    Except String String :=
  match (match func.qualname with
         | some q => some q
         | none => func.name) with
  | none => .error "AttributeError: __name__"
  | some nm =>
    match (match func.module with
           | some m => some m
           | none =>
             match func.objclassModule with
             | some m => some (some m)
             | none => none) with
    | none => .error "AttributeError: __objclass__"
    | some moduleAttr =>
      let module :=
        match moduleAttr with
        | some m =>
          match lookupStr MODULE_DICT m with
          | some v => v
          | none => m ++ "."
        | none => ""
      if func.isbuiltin || func.isfunction || _is_builtin_func func then
        .ok (":func:`" ++ nm ++ "<" ++ module ++ nm ++ ">`")
      else if func.ismethod || func.ismethoddescriptor || func.isbuiltin then
        .ok (":meth:`" ++ nm ++ "<" ++ module ++ nm ++ ">`")
      else if func.isclass then
        .ok (":class:`" ++ nm ++ "<" ++ module ++ nm ++ ">`")
      else
        .error ("TypeError: " ++ nm ++ " is neither a (builtin) function, method nor class")

/-- `BASE_DOCSTRING` from `functions.py`, with `format` applied to the four
placeholders. -/
def BASE_DOCSTRING (nm signatureText domain summary : String) : String :=
  "Perform the following assertion: :code:`assert " ++ nm ++ signatureText ++ "`.\n\n"
  ++ "Parameters\n----------\ninvert : :class:`bool`\n"
  ++ "    Invert the output of the assertion: :code:`assert not " ++ nm ++ signatureText
  ++ "`.\n\nexception : :class:`type` [:exc:`Exception`], optional\n"
  ++ "    Assert that **exception** is raised during/before the assertion operation.\n\n"
  ++ "See also\n--------\n" ++ domain ++ ":\n" ++ summary ++ "\n\n"

/-- `create_assertion_doc` from `functions.py`. -/
def create_assertion_doc (func : Callable) (signatureText : Option String) :
    Except String String :=
  match get_sphinx_domain func MODULE_DICT with
  | .error e => .error e
  | .ok domain =>
    let sgn := signatureText.getD "(*args, **kwargs)"
    let funcSummary :=
      match func.doc with
      | some d => textwrap_indent d "    "
      | none => "    No description."
    match (match func.qualname with
           | some q => some q
           | none => func.name) with
    | none => .error "AttributeError: __name__"
    | some nm => .ok (BASE_DOCSTRING nm sgn domain funcSummary)

/-- Insert or overwrite a key in an association list. -/
def setKey (l : List (String × String)) (k v : String) : List (String × String) :=
  if l.any (fun q => q.1 == k) then l.map (fun q => if q.1 == k then (k, v) else q)
  else l ++ [(k, v)]

/-- The annotation update performed by `bind_callable`: copy the original
annotations (an empty mapping when the attribute is missing) and force the
`return`, `invert` and `exception` entries. -/
def annUpdate (func : Callable) : List (String × String) :=
  setKey (setKey (setKey func.annotations "return" "None") "invert" "bool")
    "exception" "Optional[Type[Exception]]"

/-- The result of one `bind_callable` call: the attribute name installed on
the target, the generated function, its docstring and annotations, and
whether it was wrapped in `types.MethodType` (instance target). -/
structure BoundMethod where
  attrName : String
  genFunc : GeneratedFunc
  doc : String
  annotations : List (String × String)
  boundToInstance : Bool
deriving DecidableEq

/-- `bind_callable` from `functions.py`.  `classIsType` is the result of
`isinstance(class_type, type)`.  The docstring signature is sanitized by
the three literal `str.replace` calls of the source (note the first one
removes `'(' + func.__name__ + ', '`, although the rendered text always
starts with `'(func, '`). -/
def bind_callable (classIsType : Bool) (func : Callable) (nameArg : Option String) :
    Except String BoundMethod :=
  match (match nameArg with
         | some n => some n
         | none => func.name) with
  | none => .error "AttributeError: __name__"
  | some attrName =>
    match _create_assertion_func func with
    | .error e => .error e
    | .ok (function, s0) =>
      match func.name with
      | none => .error "AttributeError: __name__"
      | some fname =>
        let s1 := strReplace s0 ("(" ++ fname ++ ", ") "("
        let s2 := strReplace (strReplace s1 ", *args" "") ", **kwargs" ""
        let s3 := strReplace s2 ", invert=invert, exception=exception" ""
        match create_assertion_doc func (some s3) with
        | .error e => .error e
        | .ok docText =>
          .ok { attrName := attrName, genFunc := function, doc := docText,
                annotations := annUpdate func, boundToInstance := !classIsType }

/-- The single call the body of a generated assertion method performs:
`self.assert_(func, ...)` on the receiver, forwarding the original
callable first and then the bound arguments. -/
structure AssertCall where
  recv : PyVal
  funcArg : Callable
  posArgs : List PyVal
  kwArgs : List (String × PyVal)
deriving DecidableEq

/-- Bind caller arguments to the positional-or-keyword parameters of the
generated signature: values are consumed from the positional list first,
then looked up by keyword.  The source additionally tries to transplant
positional default values through the `co_consts[-1]` device, which is
bytecode-layout dependent and not modelled; a positional-or-keyword
parameter that receives no argument is therefore an error here, and the
theorems below always supply those arguments. -/
def bindPok : List Parameter → List PyVal → List (String × PyVal) →
    Except String (List PyVal × List PyVal)
  | [], pos, _ => .ok ([], pos)
  | p :: ps, v :: rest, kw =>
    if kw.any (fun q => q.1 == p.name) then
      .error "TypeError: got multiple values for argument"
    else
      match bindPok ps rest kw with
      | .error e => .error e
      | .ok (vals, rem) => .ok (v :: vals, rem)
  | p :: ps, [], kw =>
    match kw.find? (fun q => q.1 == p.name) with
    | some q =>
      match bindPok ps [] kw with
      | .error e => .error e
      | .ok (vals, rem) => .ok (q.2 :: vals, rem)
    | none => .error "TypeError: missing a required argument"

/-- The value bound to a keyword-only parameter of the generated function:
the caller-supplied keyword if present, otherwise the entry the source
stored in `__kwdefaults__`, which is the default of the derived parameter
or the leaked `inspect._empty` sentinel when there is none. -/
def koValue (kw : List (String × PyVal)) (p : Parameter) : PyVal :=
  match kw.find? (fun q => q.1 == p.name) with
  | some q => q.2
  | none =>
    match p.default with
    | some v => v
    | none => PyVal.vEmpty

/-- Semantics of invoking the generated assertion method on receiver
`recv` with positional arguments `pos` and keyword arguments `kw`.  The
compiled body is the single expression `self.assert_` applied to the text
produced by `_signature_to_str`, so the observable behaviour is: bind the
arguments to the derived signature, then perform exactly one `assert_`
call that receives the closed-over callable first, the values of the
required positional-or-keyword parameters and the leftover positionals
positionally, and every defaulted parameter, keyword-only parameter and
leftover keyword as keywords. -/
def invokeGenerated (g : GeneratedFunc) (recv : PyVal) (pos : List PyVal)
    (kw : List (String × PyVal)) : Except String AssertCall :=
  match g.params with
  | [] => .error "TypeError: invalid generated signature"
  | selfPrm :: tail =>
    if kw.any (fun q => q.1 == selfPrm.name) then
      .error "TypeError: got multiple values for the receiver argument"
    else
      let pokPrms := tail.filter (fun p => p.kind == .POK)
      let koPrms := tail.filter (fun p => p.kind == .KO)
      match bindPok pokPrms pos kw with
      | .error e => .error e
      | .ok (pokVals, varArgs) =>
        let pokPairs := pokPrms.zip pokVals
        let posOut :=
          (pokPairs.filterMap fun pv => if pv.1.default.isNone then some pv.2 else none)
          ++ varArgs
        let koVals := koPrms.map (fun p => (p.name, koValue kw p))
        let varKw := kw.filter (fun q =>
          !(pokPrms.any (fun p => p.name == q.1)) && !(koPrms.any (fun p => p.name == q.1)))
        let kwOut :=
          (pokPairs.filterMap fun pv =>
            if pv.1.default.isSome then some (pv.1.name, pv.2) else none)
          ++ koVals ++ varKw
        .ok { recv := recv, funcArg := g.func, posArgs := posOut, kwArgs := kwOut }

/-- The keyword value the caller supplied for `k`, or the given default. -/
def kwLookup (kw : List (String × PyVal)) (k : String) (d : PyVal) : PyVal :=
  match kw.find? (fun q => q.1 == k) with
  | some q => q.2
  | none => d

/-- Model of the builtin `len`: `inspect.signature(len)` is `(obj, /)`,
`__qualname__` and `__name__` are `len`, `__module__` is `builtins`, and
`inspect.isbuiltin` holds. -/
def lenCallable : Callable :=
  { defaultCallable with
    sig := some [ { name := "obj", kind := .PO, default := none } ],
    name := some "len", qualname := some "len",
    module := some (some "builtins"),
    doc := some "Return the number of items in a container.",
    isbuiltin := true }

/-- A callable whose native signature is the single required
positional-or-keyword parameter `args`, like `def f(args): ...`. -/
def cArgs : Callable :=
  { defaultCallable with
    sig := some [ { name := "args", kind := .POK, default := none } ],
    name := some "f", qualname := some "f" }

/-- A callable whose native signature is the single required
positional-or-keyword parameter `kwargs`, like `def f(kwargs): ...`. -/
def cKwargsPrm : Callable :=
  { defaultCallable with
    sig := some [ { name := "kwargs", kind := .POK, default := none } ],
    name := some "f", qualname := some "f" }

/-- A callable with a required positional-or-keyword parameter named
`invert`, like `def f(invert): ...`. -/
def cInvertPok : Callable :=
  { defaultCallable with
    sig := some [ { name := "invert", kind := .POK, default := none } ],
    name := some "f", qualname := some "f" }

/-- A callable with a keyword-only parameter named `invert` carrying a
default, like `def f(*, invert=None): ...` after signature reading. -/
def cInvertKo : Callable :=
  { defaultCallable with
    sig := some [ { name := "invert", kind := .KO, default := some PyVal.vNone } ],
    name := some "f", qualname := some "f" }

/-- A callable with a keyword-only parameter without a default, like
`def f(*, a): ...` (the `*` marker itself leaves no parameter). -/
def cKoNoDefault : Callable :=
  { defaultCallable with
    sig := some [ { name := "a", kind := .KO, default := none } ],
    name := some "f", qualname := some "f" }

/-- A callable whose native signature uses the `self` placeholder and also
has a parameter whose name contains `self` as a substring, like
`def f(self, selfish): ...`. -/
def cSelfish : Callable :=
  { defaultCallable with
    sig := some [ { name := "self", kind := .POK, default := none },
                  { name := "selfish", kind := .POK, default := none } ],
    name := some "f", qualname := some "f" }

/-- A callable whose native signature uses the `self` placeholder and one
further required parameter, like `def f(self, a): ...`. -/
def cSelfA : Callable :=
  { defaultCallable with
    sig := some [ { name := "self", kind := .POK, default := none },
                  { name := "a", kind := .POK, default := none } ],
    name := some "f", qualname := some "f" }

/-- A callable with a readable signature but no `__name__` attribute, such
as a `functools.partial` object. -/
def cNoName : Callable :=
  { defaultCallable with
    sig := some [ { name := "a", kind := .POK, default := none } ],
    className := "partial" }

/-- A plain function `def f(x, start=0): ...` living in module `m`. -/
def fStart : Callable :=
  { defaultCallable with
    sig := some [ { name := "x", kind := .POK, default := none },
                  { name := "start", kind := .POK, default := some (PyVal.vInt 0) } ],
    name := some "f", qualname := some "f",
    module := some (some "m"), isfunction := true }

/-- A plain function `def f(x): ...` living in module `m`. -/
def fX : Callable :=
  { defaultCallable with
    sig := some [ { name := "x", kind := .POK, default := none } ],
    name := some "f", qualname := some "f",
    module := some (some "m"), isfunction := true }

/-- A plain function `f` in module `mymod`, used with a caller-supplied
module mapping. -/
def fC9 : Callable :=
  { defaultCallable with
    name := some "f", qualname := some "f",
    module := some (some "mymod"), isfunction := true }

/-- C1, counterexample: the claim says `derive_signature` never raises for
any callable.  For `def f(args): ...` the native signature is readable, the
deriver then appends its own synthesized variadic-positional parameter
`args`, and the `inspect.Signature` constructor raises `ValueError` on the
duplicated name, so the operation does raise. -/
theorem C1_counterexample :
    cArgs.sig = some [ { name := "args", kind := .POK, default := none } ] ∧
    generate_signature cArgs = .error "ValueError: invalid Signature parameters" :=
  ⟨rfl, rfl⟩

/-- C2, counterexample: the claim says an explicit override name makes the
bind succeed for a callable without `__name__`.  It does not: the function
synthesizer itself interpolates `func.__name__` into the compiled source,
so the bind fails with the same `AttributeError` even though the override
name `custom_name` was supplied. -/
theorem C2_counterexample :
    cNoName.name = none ∧
    bind_callable true cNoName (some "custom_name") = .error "AttributeError: __name__" :=
  ⟨rfl, rfl⟩

/-- C3, counterexample: the claim says `render_call` never raises on a
well-formed Augmented Signature, including keyword-only parameters without
defaults.  The signature derived from `def f(*, a): ...` is such a
signature, and rendering it raises `KeyError` because `_KIND_TO_STR` has
no entry for the keyword-only kind. -/
theorem C3_counterexample :
    (generate_signature cKoNoDefault).bind (fun r => _signature_to_str r.1 (some "x")) =
      .error "KeyError: KEYWORD_ONLY" ∧
    (generate_signature cKoNoDefault).isOk = true :=
  ⟨rfl, rfl⟩

/-- C4, counterexample: the claim says every callable with a readable
native signature free of the four reserved names gets the four reserved
parameters from `derive_signature`.  For `def f(kwargs): ...` — readable
and free of reserved names — the deriver instead raises `ValueError`,
because its synthesized variadic-keyword parameter duplicates the name
`kwargs`, so nothing is yielded at all. -/
theorem C4_counterexample :
    cKwargsPrm.sig = some [ { name := "kwargs", kind := .POK, default := none } ] ∧
    (∀ p ∈ [ Parameter.mk "kwargs" .POK none ], p.name ∉ reservedNames) ∧
    generate_signature cKwargsPrm = .error "ValueError: invalid Signature parameters" :=
  ⟨rfl, by decide, rfl⟩

/-- C5, counterexample: the claim says any callable with a parameter named
`invert` of any kind gets the original plus a renamed `invert_` reserved
parameter and a warning.  For `def f(invert): ...` the parameter stays in
the positional-or-keyword bucket, the rename check consults only the
keyword-only bucket, and `derive_signature` raises `ValueError` on the
duplicated name instead of renaming or warning. -/
theorem C5_counterexample :
    cInvertPok.sig = some [ { name := "invert", kind := .POK, default := none } ] ∧
    generate_signature cInvertPok = .error "ValueError: invalid Signature parameters" :=
  ⟨rfl, rfl⟩

/-- C6, counterexample: the claim says the rendered call for a derived
signature whose source used the `self` placeholder never contains the
substring `self`.  For `def f(self, selfish): ...` the placeholder itself
is substituted by the display name `x`, but the unrelated parameter
`selfish` survives verbatim and contains `self`. -/
theorem C6_counterexample :
    "self" ∈ (cSelfish.sig.getD []).map (fun p => p.name) ∧
    (generate_signature cSelfish).bind (fun r => _signature_to_str r.1 (some "x")) =
      .ok "(x, function, selfish, *args, invert=invert, exception=exception, post_process=post_process, message=message, **kwargs)" ∧
    "self".data <:+: "(x, function, selfish, *args, invert=invert, exception=exception, post_process=post_process, message=message, **kwargs)".data :=
  ⟨by decide, rfl, by decide⟩

/-- C7: evaluating the pipeline at the builtin `len` bound under its
default name.  The docstring produced by the code keeps the closed-over
`func` receiver and the `post_process`/`message` forwarding entries in the
rendered signature, because `bind_callable` strips `'(len, '` (built from
`func.__name__`) while the rendered text starts with `'(func, '`, and only
removes the `invert`/`exception` pair.  The first line therefore differs
from the documented `assert len(obj)` form. -/
theorem C7_docstring :
    (bind_callable true lenCallable none).map (fun bm => firstLine bm.doc) =
      .ok "Perform the following assertion: :code:`assert len(func, obj, post_process=post_process, message=message)`." ∧
    ("Perform the following assertion: :code:`assert len(func, obj, post_process=post_process, message=message)`." ≠
      "Perform the following assertion: :code:`assert len(obj)`.") :=
  ⟨rfl, by decide⟩

/-- C8, counterexample: the claim says the `assert_` call forwards exactly
the caller-supplied arguments plus the four reserved parameters.  Binding
`def f(x, start=0): ...` and invoking the method with one positional
argument and no keywords produces an `assert_` call whose keywords also
contain `start=0`, which the caller never supplied and which is not one of
the four reserved parameters. -/
theorem C8_counterexample :
    ((bind_callable true fStart none).bind
        (fun bm => invokeGenerated bm.genFunc (PyVal.vInt 0) [ PyVal.vInt 7 ] [])).map
      AssertCall.kwArgs =
      .ok [ ("start", PyVal.vInt 0), ("invert", PyVal.vBool false),
            ("exception", PyVal.vNone), ("post_process", PyVal.vNone),
            ("message", PyVal.vNone) ] ∧
    "start" ∉ reservedNames :=
  ⟨rfl, by decide⟩

/-- C9: the documentation synthesizer does not honour a caller-supplied
name-mapping table.  With the mapping `mymod ↦ public.` supplied as the
`module_mapping` argument, `get_sphinx_domain` still embeds `mymod.`,
because its body consults the global `MODULE_DICT` instead of its
argument, contradicting the documented behaviour of the argument. -/
theorem C9_mapping_ignored :
    get_sphinx_domain fC9 [ ("mymod", "public.") ] = .ok ":func:`f<mymod.f>`" ∧
    (":func:`f<mymod.f>`" ≠ ":func:`f<public.f>`") :=
  ⟨rfl, by decide⟩

/-! ### Helper lemmas about the embedded definitions -/

theorem nameMem_eq_true_iff {n : String} {l : List Parameter} :
    nameMem n l = true ↔ ∃ p ∈ l, p.name = n := by
  simp [nameMem, List.any_eq_true]

theorem nameMem_eq_false_iff {n : String} {l : List Parameter} :
    nameMem n l = false ↔ ∀ p ∈ l, p.name ≠ n := by
  rw [← Bool.not_eq_true, nameMem_eq_true_iff]
  push_neg
  rfl

theorem validateParams_cons {p : Parameter} {rest : List Parameter} {top : Nat}
    {kd : Bool} {seen : List String}
    (h : validateParams (p :: rest) top kd seen = true) :
    (seen.any (fun n => n == p.name)) = false ∧
      ∃ kd2, validateParams rest (kindRank p.kind) kd2 (p.name :: seen) = true := by
  rw [validateParams] at h
  by_cases h1 : kindRank p.kind < top
  · rw [if_pos h1] at h
    exact absurd h (by simp)
  · rw [if_neg h1] at h
    by_cases h2 : ((p.kind == ParamKind.PO || p.kind == ParamKind.POK) && p.default.isNone
        && (if top < kindRank p.kind then false else kd)) = true
    · rw [if_pos h2] at h
      exact absurd h (by simp)
    · rw [if_neg h2] at h
      by_cases h3 : (seen.any fun n => n == p.name) = true
      · rw [if_pos h3] at h
        exact absurd h (by simp)
      · rw [if_neg h3] at h
        exact ⟨Bool.eq_false_iff.mpr h3, _, h⟩

theorem validateParams_nodup :
    ∀ (l : List Parameter) (top : Nat) (kd : Bool) (seen : List String),
      validateParams l top kd seen = true →
      (l.map (fun p => p.name)).Nodup ∧ ∀ p ∈ l, p.name ∉ seen := by
  intro l
  induction l with
  | nil =>
    intro top kd seen _
    simp
  | cons p rest ih =>
    intro top kd seen h
    obtain ⟨hSeen, kd2, hrec⟩ := validateParams_cons h
    obtain ⟨hnd, hfresh⟩ := ih _ _ _ hrec
    have hpSeen : p.name ∉ seen := by
      intro hmem
      have : seen.any (fun n => n == p.name) = true :=
        List.any_eq_true.mpr ⟨p.name, hmem, by simp⟩
      simp [this] at hSeen
    refine ⟨?_, ?_⟩
    · refine List.nodup_cons.mpr ⟨?_, hnd⟩
      intro hmem
      obtain ⟨q, hq, hqname⟩ := List.mem_map.mp hmem
      have := hfresh q hq
      simp [hqname] at this
    · intro q hq
      rcases List.mem_cons.mp hq with rfl | hq2
      · exact hpSeen
      · have := hfresh q hq2
        intro hc
        exact this (List.mem_cons_of_mem _ hc)

theorem addToBucket_pok (b : Buckets) (p : Parameter) :
    (addToBucket b p).pok
      = if p.kind == .POK || p.kind == .PO then b.pok ++ [p] else b.pok := by
  cases hk : p.kind <;> simp [addToBucket, hk]

theorem addToBucket_vp (b : Buckets) (p : Parameter) :
    (addToBucket b p).vp = if p.kind == .VP then b.vp ++ [p] else b.vp := by
  cases hk : p.kind <;> simp [addToBucket, hk]

theorem addToBucket_ko (b : Buckets) (p : Parameter) :
    (addToBucket b p).ko = if p.kind == .KO then b.ko ++ [p] else b.ko := by
  cases hk : p.kind <;> simp [addToBucket, hk]

theorem addToBucket_vk (b : Buckets) (p : Parameter) :
    (addToBucket b p).vk = if p.kind == .VK then b.vk ++ [p] else b.vk := by
  cases hk : p.kind <;> simp [addToBucket, hk]

theorem fillBuckets_pok (s : String) :
    ∀ (l : List Parameter) (b : Buckets),
      (fillBuckets s l b).pok
        = b.pok ++ (l.map (classifyPrm s)).filter
            (fun q => q.kind == .POK || q.kind == .PO) := by
  intro l
  induction l with
  | nil =>
    intro b
    simp [fillBuckets]
  | cons p rest ih =>
    intro b
    rw [fillBuckets, ih, addToBucket_pok]
    simp only [List.map_cons, List.filter_cons]
    split <;> simp_all

theorem fillBuckets_vp (s : String) :
    ∀ (l : List Parameter) (b : Buckets),
      (fillBuckets s l b).vp
        = b.vp ++ (l.map (classifyPrm s)).filter (fun q => q.kind == .VP) := by
  intro l
  induction l with
  | nil =>
    intro b
    simp [fillBuckets]
  | cons p rest ih =>
    intro b
    rw [fillBuckets, ih, addToBucket_vp]
    simp only [List.map_cons, List.filter_cons]
    split <;> simp_all

theorem fillBuckets_ko (s : String) :
    ∀ (l : List Parameter) (b : Buckets),
      (fillBuckets s l b).ko
        = b.ko ++ (l.map (classifyPrm s)).filter (fun q => q.kind == .KO) := by
  intro l
  induction l with
  | nil =>
    intro b
    simp [fillBuckets]
  | cons p rest ih =>
    intro b
    rw [fillBuckets, ih, addToBucket_ko]
    simp only [List.map_cons, List.filter_cons]
    split <;> simp_all

theorem fillBuckets_vk (s : String) :
    ∀ (l : List Parameter) (b : Buckets),
      (fillBuckets s l b).vk
        = b.vk ++ (l.map (classifyPrm s)).filter (fun q => q.kind == .VK) := by
  intro l
  induction l with
  | nil =>
    intro b
    simp [fillBuckets]
  | cons p rest ih =>
    intro b
    rw [fillBuckets, ih, addToBucket_vk]
    simp only [List.map_cons, List.filter_cons]
    split <;> simp_all

theorem classifyPrm_kind_ne_PO (s : String) (p : Parameter) :
    (classifyPrm s p).kind ≠ .PO := by
  simp only [classifyPrm]
  split_ifs with h1 h2 h3 <;> simp_all

theorem classifyPrm_name (s : String) (p : Parameter) (h : p.name ≠ "self") :
    (classifyPrm s p).name = p.name := by
  simp only [classifyPrm]
  split_ifs with h1 h2 h3 <;> simp_all

theorem classifyPrm_kind_eq_VP (s : String) (p : Parameter) :
    (classifyPrm s p).kind = .VP ↔ p.kind = .VP ∧ p.name ≠ "self" := by
  simp only [classifyPrm]
  split_ifs with h1 h2 h3 <;> simp_all

theorem classifyPrm_kind_eq_VK (s : String) (p : Parameter) :
    (classifyPrm s p).kind = .VK ↔ p.kind = .VK ∧ p.name ≠ "self" := by
  simp only [classifyPrm]
  split_ifs with h1 h2 h3 <;> simp_all

theorem classifyPrm_KO_of (s : String) (p : Parameter) (hself : p.name ≠ "self")
    (hk : p.kind = .KO ∨ (p.kind = .POK ∧ p.default.isSome = true)) :
    (classifyPrm s p).kind = .KO ∧ (classifyPrm s p).name = p.name := by
  simp only [classifyPrm]
  rcases hk with hk | ⟨hk, hd⟩ <;> split_ifs with h1 h2 h3 <;> simp_all

theorem classifyPrm_name_of_KO (s : String) (p : Parameter)
    (h : (classifyPrm s p).kind = .KO) : (classifyPrm s p).name = p.name := by
  simp only [classifyPrm] at h ⊢
  split_ifs with h1 h2 h3 <;> simp_all

theorem countP_lt_of_witness {α : Type} {l : List α} {p q : α → Bool} {x : α}
    (hx : x ∈ l) (hpx : p x = false) (hqx : q x = true)
    (himp : ∀ a, p a = true → q a = true) : l.countP p < l.countP q := by
  induction l with
  | nil => cases hx
  | cons a t ih =>
    rw [List.countP_cons, List.countP_cons]
    rcases List.mem_cons.mp hx with rfl | hmem
    · have hle : t.countP p ≤ t.countP q :=
        List.countP_mono_left (fun a _ hpa => himp a hpa)
      simp [hpx, hqx]
      omega
    · have hlt := ih hmem
      by_cases hpa : p a = true
      · simp [hpa, himp a hpa]
        omega
      · simp [Bool.eq_false_iff.mpr hpa]
        by_cases hqa : q a = true
        · simp [hqa]
          omega
        · simp [Bool.eq_false_iff.mpr hqa]
          omega

theorem sanitize_aux_fresh (func : Callable) :
    ∀ (fuel : Nat) (nm : String) (prms : List Parameter),
      prms.countP (fun p => decide (nm.length ≤ p.name.length)) < fuel →
      nameMem (_sanitize_aux func fuel nm prms).1 prms = false := by
  intro fuel
  induction fuel with
  | zero =>
    intro nm prms h
    omega
  | succ n ih =>
    intro nm prms h
    rw [_sanitize_aux]
    by_cases hc : nameMem nm prms = true
    · rw [if_pos hc]
      show nameMem (_sanitize_aux func n (nm ++ "_") prms).1 prms = false
      apply ih
      obtain ⟨p0, hp0, hp0n⟩ := nameMem_eq_true_iff.mp hc
      have hu : ("_" : String).length = 1 := rfl
      have hlt : prms.countP (fun p => decide ((nm ++ "_").length ≤ p.name.length))
          < prms.countP (fun p => decide (nm.length ≤ p.name.length)) := by
        apply countP_lt_of_witness (x := p0) hp0
        · simp only [hp0n, String.length_append, decide_eq_false_iff_not]
          omega
        · simp [hp0n]
        · intro a ha
          simp only [decide_eq_true_eq, String.length_append] at ha ⊢
          omega
      omega
    · rw [if_neg hc]
      exact Bool.eq_false_iff.mpr hc

theorem sanitize_name_fresh (nm : String) (func : Callable) (prms : List Parameter) :
    nameMem (_sanitize_name nm func prms).1 prms = false := by
  apply sanitize_aux_fresh
  have := List.countP_le_length (fun p => decide (nm.length ≤ p.name.length)) (l := prms)
  omega

theorem sanitize_aux_extends (func : Callable) :
    ∀ (fuel : Nat) (nm : String) (prms : List Parameter),
      ∃ t, (_sanitize_aux func fuel nm prms).1 = nm ++ t := by
  intro fuel
  induction fuel with
  | zero =>
    intro nm prms
    exact ⟨"", (String.append_empty nm).symm⟩
  | succ n ih =>
    intro nm prms
    rw [_sanitize_aux]
    by_cases hc : nameMem nm prms = true
    · rw [if_pos hc]
      obtain ⟨t, ht⟩ := ih (nm ++ "_") prms
      refine ⟨"_" ++ t, ?_⟩
      show (_sanitize_aux func n (nm ++ "_") prms).1 = nm ++ ("_" ++ t)
      rw [ht, String.append_assoc]
    · rw [if_neg hc]
      exact ⟨"", (String.append_empty nm).symm⟩

theorem sanitize_name_collision (nm : String) (func : Callable) (prms : List Parameter)
    (hc : nameMem nm prms = true) :
    (_sanitize_name nm func prms).2 ≠ [] ∧
      ∃ t, (_sanitize_name nm func prms).1 = (nm ++ "_") ++ t := by
  rw [_sanitize_name, _sanitize_aux, if_pos hc]
  constructor
  · simp
  · obtain ⟨t, ht⟩ := sanitize_aux_extends func prms.length (nm ++ "_") prms
    exact ⟨t, ht⟩

theorem sanitize_name_no_collision (nm : String) (func : Callable) (prms : List Parameter)
    (hc : nameMem nm prms = false) : _sanitize_name nm func prms = (nm, []) := by
  rw [_sanitize_name, _sanitize_aux, if_neg (by simp [hc])]

theorem mkSignature_ok {l l2 : List Parameter} (h : mkSignature l = .ok l2) :
    l2 = l ∧ validateParams l 0 false [] = true := by
  rw [mkSignature] at h
  by_cases hv : validateParams l 0 false [] = true
  · rw [if_pos hv] at h
    cases h
    exact ⟨rfl, hv⟩
  · rw [if_neg hv] at h
    cases h

theorem generate_signature_ok {func : Callable} {prms ps : List Parameter} {ws : List String}
    (hs : func.sig = some prms) (h : generate_signature func = .ok (ps, ws)) :
    ps = deriveParams func prms ∧ ws = deriveWarnings func prms ∧
      validateParams (deriveParams func prms) 0 false [] = true := by
  rw [generate_signature, hs] at h
  cases hmk : mkSignature (deriveParams func prms) with
  | error e =>
    simp [hmk] at h
  | ok ps2 =>
    simp only [hmk, Except.ok.injEq, Prod.mk.injEq] at h
    obtain ⟨hps, hws⟩ := h
    obtain ⟨h1, h2⟩ := mkSignature_ok hmk
    exact ⟨hps ▸ h1, hws.symm, h2⟩

theorem deriveBuckets_pok (func : Callable) (prms : List Parameter) :
    (deriveBuckets func prms).pok
      = { name := "self", kind := .POK, default := none }
        :: (prms.map (classifyPrm ( _get_cls_annotation func))).filter
             (fun q => q.kind == .POK || q.kind == .PO) := by
  rw [deriveBuckets, fillBuckets_pok]
  rfl

theorem deriveBuckets_vp (func : Callable) (prms : List Parameter) :
    (deriveBuckets func prms).vp
      = (prms.map (classifyPrm ( _get_cls_annotation func))).filter
          (fun q => q.kind == .VP) := by
  rw [deriveBuckets, fillBuckets_vp]
  rfl

theorem deriveBuckets_ko (func : Callable) (prms : List Parameter) :
    (deriveBuckets func prms).ko
      = (prms.map (classifyPrm ( _get_cls_annotation func))).filter
          (fun q => q.kind == .KO) := by
  rw [deriveBuckets, fillBuckets_ko]
  rfl

theorem deriveBuckets_vk (func : Callable) (prms : List Parameter) :
    (deriveBuckets func prms).vk
      = (prms.map (classifyPrm ( _get_cls_annotation func))).filter
          (fun q => q.kind == .VK) := by
  rw [deriveBuckets, fillBuckets_vk]
  rfl

theorem exceptMapM_ok_mem {α β : Type} {f : α → Except String β} :
    ∀ {l : List α} {es : List β}, exceptMapM f l = .ok es →
      ∀ e ∈ es, ∃ a ∈ l, f a = .ok e := by
  intro l
  induction l with
  | nil =>
    intro es h e he
    rw [exceptMapM] at h
    cases h
    cases he
  | cons a t ih =>
    intro es h e he
    rw [exceptMapM] at h
    cases hfa : f a with
    | error err =>
      rw [hfa] at h
      cases h
    | ok b =>
      rw [hfa] at h
      cases hmt : exceptMapM f t with
      | error err =>
        rw [hmt] at h
        cases h
      | ok bs =>
        rw [hmt] at h
        cases h
        rcases List.mem_cons.mp he with rfl | he2
        · exact ⟨a, List.mem_cons_self a t, hfa⟩
        · obtain ⟨a2, ha2, hfa2⟩ := ih hmt e he2
          exact ⟨a2, List.mem_cons_of_mem _ ha2, hfa2⟩

theorem exceptMapM_cons_ok {α β : Type} {f : α → Except String β} {a : α} {l : List α}
    {es : List β} (h : exceptMapM f (a :: l) = .ok es) :
    ∃ b es2, f a = .ok b ∧ exceptMapM f l = .ok es2 ∧ es = b :: es2 := by
  rw [exceptMapM] at h
  cases hfa : f a with
  | error err =>
    rw [hfa] at h
    cases h
  | ok b =>
    rw [hfa] at h
    cases hmt : exceptMapM f l with
    | error err =>
      rw [hmt] at h
      cases h
    | ok bs =>
      rw [hmt] at h
      cases h
      exact ⟨b, bs, rfl, rfl, rfl⟩

theorem exceptMapM_total {α β : Type} {f : α → Except String β} :
    ∀ (l : List α), (∀ a ∈ l, ∃ b, f a = .ok b) →
      ∃ bs, exceptMapM f l = .ok bs := by
  intro l
  induction l with
  | nil =>
    intro _
    exact ⟨[], rfl⟩
  | cons a t ih =>
    intro hall
    obtain ⟨b, hb⟩ := hall a (List.mem_cons_self a t)
    obtain ⟨bs, hbs⟩ := ih (fun x hx => hall x (List.mem_cons_of_mem _ hx))
    refine ⟨b :: bs, ?_⟩
    rw [exceptMapM, hb, hbs]

/-! ### Claim theorems -/

/-- C1 (amended): for every callable whose native signature cannot be
read, `derive_signature` returns the fixed backup signature without
raising — the self-like parameter, one variadic-positional parameter, the
four reserved keyword-only parameters with defaults `False`, `None`,
`None`, `None`, and one variadic-keyword parameter.  (The original
never-raises claim over all callables is refuted by `C1_counterexample`:
for readable signatures the operation can raise on a name collision with
the synthesized parameters.) -/
theorem C1_fallback (func : Callable) (h : func.sig = none) :
    generate_signature func = .ok (BACK_SIGNATURE, []) ∧
      BACK_SIGNATURE =
        [ { name := "self", kind := .POK, default := none },
          { name := "args", kind := .VP, default := none },
          { name := "invert", kind := .KO, default := some (PyVal.vBool false) },
          { name := "exception", kind := .KO, default := some PyVal.vNone },
          { name := "post_process", kind := .KO, default := some PyVal.vNone },
          { name := "message", kind := .KO, default := some PyVal.vNone },
          { name := "kwargs", kind := .VK, default := none } ] := by
  constructor
  · rw [generate_signature, h]
  · rfl

/-- Witness for C1: the fallback theorem applied to a callable whose
signature lookup raises. -/
theorem C1_fallback_witness :
    generate_signature defaultCallable = .ok (BACK_SIGNATURE, []) :=
  (C1_fallback defaultCallable rfl).1

/-- C2 (amended): for every callable that exposes no `__name__`
attribute, the bind operation fails with a descriptive error whether or
not an override name is supplied; the override name only changes the
attribute name installed, while the function synthesizer itself reads
`func.__name__`.  (The original claim that an override name makes the bind
succeed is refuted by `C2_counterexample`.) -/
theorem C2_missing_name (classIsType : Bool) (func : Callable) (nameArg : Option String)
    (h : func.name = none) :
    ∃ e, bind_callable classIsType func nameArg = .error e := by
  cases nameArg with
  | none =>
    refine ⟨"AttributeError: __name__", ?_⟩
    rw [bind_callable, h]
  | some n =>
    rw [bind_callable]
    cases hcr : _create_assertion_func func with
    | error e =>
      refine ⟨e, ?_⟩
      simp only [hcr]
    | ok fo =>
      obtain ⟨fn, s0⟩ := fo
      refine ⟨"AttributeError: __name__", ?_⟩
      simp only [hcr, h]

/-- Witness for C2: a callable with a readable signature but no
`__name__`, bound without an override name. -/
theorem C2_missing_name_witness :
    cNoName.name = none ∧ ∃ e, bind_callable true cNoName none = .error e :=
  ⟨rfl, C2_missing_name true cNoName none rfl⟩

/-- C3 (amended): `render_call` returns the literal parameter-list text
without raising for every signature all of whose keyword-only parameters
carry a default — which covers every other parameter kind the deriver
produces.  (The original claim including keyword-only parameters without
defaults is refuted by `C3_counterexample`: `_KIND_TO_STR` has no entry
for the keyword-only kind.) -/
theorem C3_render_total (sgn : List Parameter) (funcName : Option String)
    (h : ∀ p ∈ sgn, p.kind = .KO → p.default.isSome = true) :
    ∃ s, _signature_to_str sgn funcName = .ok s := by
  have hall : ∀ p ∈ sgn, ∃ b, prmToStr (funcName.getD "self") p = .ok b := by
    intro p hp
    by_cases h1 : (p.name == "self") = true
    · exact ⟨_, by rw [prmToStr, if_pos h1]⟩
    · by_cases h2 : p.default.isSome = true
      · exact ⟨_, by rw [prmToStr, if_neg h1, if_pos h2]⟩
      · cases hk : p.kind
        · exact ⟨_, by rw [prmToStr, if_neg h1, if_neg h2, hk]; rfl⟩
        · exact ⟨_, by rw [prmToStr, if_neg h1, if_neg h2, hk]; rfl⟩
        · exact ⟨_, by rw [prmToStr, if_neg h1, if_neg h2, hk]; rfl⟩
        · exact absurd (h p hp hk) h2
        · exact ⟨_, by rw [prmToStr, if_neg h1, if_neg h2, hk]; rfl⟩
  obtain ⟨entries, hentries⟩ := exceptMapM_total sgn hall
  refine ⟨"(" ++ strIntercalate ", " entries ++ ")", ?_⟩
  rw [_signature_to_str]
  simp only [hentries]

/-- Witness for C3: the backup signature, whose keyword-only parameters
all have defaults, renders successfully. -/
theorem C3_render_total_witness :
    (∀ p ∈ BACK_SIGNATURE, p.kind = ParamKind.KO → p.default.isSome = true) ∧
      ∃ s, _signature_to_str BACK_SIGNATURE (some "x") = .ok s :=
  ⟨by decide, C3_render_total BACK_SIGNATURE (some "x") (by decide)⟩

/-- C10 (confirmed): `_sanitize_name` terminates — it is a total function
whose recursion fuel `prms.length + 1` is proven sufficient here — and the
name it returns does not collide with the name of any parameter in the
collection it was checked against (`nameMem` is the membership test the
source performs). -/
theorem C10_sanitize_fresh (nm : String) (func : Callable) (prms : List Parameter) :
    nameMem (_sanitize_name nm func prms).1 prms = false :=
  sanitize_name_fresh nm func prms

theorem deriveParams_eq (func : Callable) (prms : List Parameter) :
    deriveParams func prms
      = (deriveBuckets func prms).pok
        ++ (if (deriveBuckets func prms).vp.isEmpty
            then [ { name := "args", kind := .VP, default := none } ]
            else (deriveBuckets func prms).vp)
        ++ deriveKo func prms
        ++ (if (deriveBuckets func prms).vk.isEmpty
            then [ { name := "kwargs", kind := .VK, default := none } ]
            else (deriveBuckets func prms).vk) := rfl

theorem deriveKo_names (func : Callable) (prms : List Parameter)
    (q : Parameter) (hq : q ∈ (deriveBuckets func prms).ko) :
    ∃ p ∈ prms, q.name = p.name := by
  rw [deriveBuckets_ko] at hq
  obtain ⟨hq1, hq2⟩ := List.mem_filter.mp hq
  obtain ⟨p, hp, rfl⟩ := List.mem_map.mp hq1
  exact ⟨p, hp, classifyPrm_name_of_KO _ _ (by simpa using hq2)⟩

theorem deriveKo_eq (func : Callable) (prms : List Parameter)
    (hres : ∀ p ∈ prms, p.name ∉ reservedNames) :
    deriveKo func prms
      = (deriveBuckets func prms).ko ++
        [ { name := "invert", kind := .KO, default := some (PyVal.vBool false) },
          { name := "exception", kind := .KO, default := some PyVal.vNone },
          { name := "post_process", kind := .KO, default := some PyVal.vNone },
          { name := "message", kind := .KO, default := some PyVal.vNone } ] := by
  have hni : ∀ nm ∈ reservedNames, nameMem nm (deriveBuckets func prms).ko = false := by
    intro nm hnm
    rw [nameMem_eq_false_iff]
    intro q hq
    obtain ⟨p, hp, hqp⟩ := deriveKo_names func prms q hq
    intro hc
    apply hres p hp
    rw [← hqp, hc]
    exact hnm
  rw [deriveKo]
  rw [sanitize_name_no_collision _ _ _ (hni "invert" (by simp [reservedNames])),
    sanitize_name_no_collision _ _ _ (hni "exception" (by simp [reservedNames])),
    sanitize_name_no_collision _ _ _ (hni "post_process" (by simp [reservedNames])),
    sanitize_name_no_collision _ _ _ (hni "message" (by simp [reservedNames]))]

theorem deriveBuckets_pok_kinds (func : Callable) (prms : List Parameter) :
    ∀ q ∈ (deriveBuckets func prms).pok, q.kind = .POK := by
  intro q hq
  rw [deriveBuckets_pok] at hq
  rcases List.mem_cons.mp hq with rfl | hq2
  · rfl
  · obtain ⟨hm, hpred⟩ := List.mem_filter.mp hq2
    obtain ⟨p, hp, rfl⟩ := List.mem_map.mp hm
    rcases (by simpa using hpred :
        (classifyPrm ( _get_cls_annotation func) p).kind = .POK
          ∨ (classifyPrm ( _get_cls_annotation func) p).kind = .PO) with h | h
    · exact h
    · exact absurd h (classifyPrm_kind_ne_PO _ _)

theorem deriveBuckets_vp_kinds (func : Callable) (prms : List Parameter) :
    ∀ q ∈ (deriveBuckets func prms).vp, q.kind = .VP := by
  intro q hq
  rw [deriveBuckets_vp] at hq
  obtain ⟨_, hpred⟩ := List.mem_filter.mp hq
  simpa using hpred

theorem deriveBuckets_vk_kinds (func : Callable) (prms : List Parameter) :
    ∀ q ∈ (deriveBuckets func prms).vk, q.kind = .VK := by
  intro q hq
  rw [deriveBuckets_vk] at hq
  obtain ⟨_, hpred⟩ := List.mem_filter.mp hq
  simpa using hpred

theorem deriveKo_kinds (func : Callable) (prms : List Parameter) :
    ∀ q ∈ deriveKo func prms, q.kind = .KO := by
  intro q hq
  rw [deriveKo] at hq
  rcases List.mem_append.mp hq with hq2 | hq2
  · rw [deriveBuckets_ko] at hq2
    obtain ⟨_, hpred⟩ := List.mem_filter.mp hq2
    simpa using hpred
  · simp only [List.mem_cons, List.mem_singleton] at hq2
    rcases hq2 with rfl | rfl | rfl | rfl | h
    · rfl
    · rfl
    · rfl
    · rfl
    · cases h

theorem classified_bucket_le (prms : List Parameter) (s : String) (k : ParamKind)
    (hk : ∀ a : Parameter, (classifyPrm s a).kind = k → a.kind = k) :
    ((prms.map (classifyPrm s)).filter (fun q => q.kind == k)).length
      ≤ (prms.filter (fun p => p.kind == k)).length := by
  rw [List.filter_map, List.length_map, ← List.countP_eq_length_filter,
    ← List.countP_eq_length_filter]
  apply List.countP_mono_left
  intro a _ ha
  simp only [Function.comp_apply, beq_iff_eq] at ha
  simp only [beq_iff_eq]
  exact hk a ha

theorem filter_name_nil {l : List Parameter} {n : String}
    (h : ∀ q ∈ l, q.name ≠ n) : l.filter (fun p => p.name == n) = [] :=
  List.filter_eq_nil_iff.mpr (fun q hq => by simp [h q hq])

theorem filter_name_eq_singleton {l : List Parameter} {x : Parameter}
    (hnd : (l.map (fun p => p.name)).Nodup) (hx : x ∈ l) :
    l.filter (fun p => p.name == x.name) = [x] := by
  induction l with
  | nil => cases hx
  | cons a t ih =>
    rw [List.map_cons, List.nodup_cons] at hnd
    obtain ⟨hna, hndt⟩ := hnd
    rcases List.mem_cons.mp hx with rfl | hxt
    · rw [List.filter_cons_of_pos (by simp)]
      rw [filter_name_nil]
      intro q hq hqn
      exact hna (List.mem_map.mpr ⟨q, hq, hqn⟩)
    · rw [List.filter_cons_of_neg, ih hndt hxt]
      simp only [beq_iff_eq]
      intro hc
      exact hna (hc ▸ List.mem_map.mpr ⟨x, hxt, rfl⟩)

/-- C4 (amended): for every callable with a readable native signature that
contains no parameter named `invert`, `exception`, `post_process` or
`message`, has at most one variadic parameter of each kind (true of every
genuine native signature), and for which the derivation succeeds (see
`C4_counterexample` for a readable, reserved-free signature on which it
raises), the derived signature contains exactly one parameter for each of
the four reserved names — keyword-only, with defaults `False`, `None`,
`None`, `None` — and exactly one variadic-positional and one
variadic-keyword parameter. -/
theorem C4_reserved (func : Callable) (prms ps : List Parameter) (ws : List String)
    (hs : func.sig = some prms)
    (hres : ∀ p ∈ prms, p.name ∉ reservedNames)
    (hvp : (prms.filter (fun p => p.kind == .VP)).length ≤ 1)
    (hvk : (prms.filter (fun p => p.kind == .VK)).length ≤ 1)
    (hgen : generate_signature func = .ok (ps, ws)) :
    ps.filter (fun p => p.name == "invert")
        = [ { name := "invert", kind := .KO, default := some (PyVal.vBool false) } ] ∧
    ps.filter (fun p => p.name == "exception")
        = [ { name := "exception", kind := .KO, default := some PyVal.vNone } ] ∧
    ps.filter (fun p => p.name == "post_process")
        = [ { name := "post_process", kind := .KO, default := some PyVal.vNone } ] ∧
    ps.filter (fun p => p.name == "message")
        = [ { name := "message", kind := .KO, default := some PyVal.vNone } ] ∧
    (ps.filter (fun p => p.kind == .VP)).length = 1 ∧
    (ps.filter (fun p => p.kind == .VK)).length = 1 := by
  obtain ⟨hps, hws, hval⟩ := generate_signature_ok hs hgen
  subst hps
  have hnd := (validateParams_nodup _ 0 false [] hval).1
  have hKo := deriveKo_eq func prms hres
  have hmemInv :
      ({ name := "invert", kind := ParamKind.KO,
         default := some (PyVal.vBool false) } : Parameter) ∈ deriveParams func prms := by
    rw [deriveParams_eq, hKo]
    simp
  have hmemExc :
      ({ name := "exception", kind := ParamKind.KO,
         default := some PyVal.vNone } : Parameter) ∈ deriveParams func prms := by
    rw [deriveParams_eq, hKo]
    simp
  have hmemPP :
      ({ name := "post_process", kind := ParamKind.KO,
         default := some PyVal.vNone } : Parameter) ∈ deriveParams func prms := by
    rw [deriveParams_eq, hKo]
    simp
  have hmemMsg :
      ({ name := "message", kind := ParamKind.KO,
         default := some PyVal.vNone } : Parameter) ∈ deriveParams func prms := by
    rw [deriveParams_eq, hKo]
    simp
  have hpokVP : (deriveBuckets func prms).pok.filter (fun p => p.kind == ParamKind.VP) = [] :=
    List.filter_eq_nil_iff.mpr (fun q hq => by simp [deriveBuckets_pok_kinds func prms q hq])
  have hpokVK : (deriveBuckets func prms).pok.filter (fun p => p.kind == ParamKind.VK) = [] :=
    List.filter_eq_nil_iff.mpr (fun q hq => by simp [deriveBuckets_pok_kinds func prms q hq])
  have hkoVP : (deriveKo func prms).filter (fun p => p.kind == ParamKind.VP) = [] :=
    List.filter_eq_nil_iff.mpr (fun q hq => by simp [deriveKo_kinds func prms q hq])
  have hkoVK : (deriveKo func prms).filter (fun p => p.kind == ParamKind.VK) = [] :=
    List.filter_eq_nil_iff.mpr (fun q hq => by simp [deriveKo_kinds func prms q hq])
  refine ⟨filter_name_eq_singleton hnd hmemInv, filter_name_eq_singleton hnd hmemExc,
    filter_name_eq_singleton hnd hmemPP, filter_name_eq_singleton hnd hmemMsg, ?_, ?_⟩
  · rw [deriveParams_eq]
    rw [List.filter_append, List.filter_append, List.filter_append]
    have hvkseg :
        ((if (deriveBuckets func prms).vk.isEmpty
          then [ { name := "kwargs", kind := ParamKind.VK, default := none } ]
          else (deriveBuckets func prms).vk).filter (fun p => p.kind == ParamKind.VP)) = [] := by
      split
      · simp
      · exact List.filter_eq_nil_iff.mpr
          (fun q hq => by simp [deriveBuckets_vk_kinds func prms q hq])
    by_cases hemp : (deriveBuckets func prms).vp.isEmpty = true
    · rw [if_pos hemp]
      simp only [hpokVP, hkoVP, hvkseg, List.nil_append, List.append_nil]
      simp
    · rw [if_neg hemp]
      have hself :
          (deriveBuckets func prms).vp.filter (fun p => p.kind == ParamKind.VP)
            = (deriveBuckets func prms).vp :=
        List.filter_eq_self.mpr (fun q hq => by simp [deriveBuckets_vp_kinds func prms q hq])
      have hle : (deriveBuckets func prms).vp.length ≤ 1 := by
        rw [deriveBuckets_vp]
        calc ((prms.map (classifyPrm ( _get_cls_annotation func))).filter
                (fun q => q.kind == ParamKind.VP)).length
            ≤ (prms.filter (fun p => p.kind == ParamKind.VP)).length :=
              classified_bucket_le prms _ .VP
                (fun a ha => ((classifyPrm_kind_eq_VP _ a).mp ha).1)
          _ ≤ 1 := hvp
      have hne : (deriveBuckets func prms).vp ≠ [] := by
        intro hnil
        rw [hnil] at hemp
        simp at hemp
      have hpos : 0 < (deriveBuckets func prms).vp.length := List.length_pos.mpr hne
      simp only [hpokVP, hkoVP, hvkseg, hself, List.nil_append, List.append_nil]
      omega
  · rw [deriveParams_eq]
    rw [List.filter_append, List.filter_append, List.filter_append]
    have hvpseg :
        ((if (deriveBuckets func prms).vp.isEmpty
          then [ { name := "args", kind := ParamKind.VP, default := none } ]
          else (deriveBuckets func prms).vp).filter (fun p => p.kind == ParamKind.VK)) = [] := by
      split
      · simp
      · exact List.filter_eq_nil_iff.mpr
          (fun q hq => by simp [deriveBuckets_vp_kinds func prms q hq])
    by_cases hemp : (deriveBuckets func prms).vk.isEmpty = true
    · rw [if_pos hemp]
      simp only [hpokVK, hkoVK, hvpseg, List.nil_append, List.append_nil]
      simp
    · rw [if_neg hemp]
      have hself :
          (deriveBuckets func prms).vk.filter (fun p => p.kind == ParamKind.VK)
            = (deriveBuckets func prms).vk :=
        List.filter_eq_self.mpr (fun q hq => by simp [deriveBuckets_vk_kinds func prms q hq])
      have hle : (deriveBuckets func prms).vk.length ≤ 1 := by
        rw [deriveBuckets_vk]
        calc ((prms.map (classifyPrm ( _get_cls_annotation func))).filter
                (fun q => q.kind == ParamKind.VK)).length
            ≤ (prms.filter (fun p => p.kind == ParamKind.VK)).length :=
              classified_bucket_le prms _ .VK
                (fun a ha => ((classifyPrm_kind_eq_VK _ a).mp ha).1)
          _ ≤ 1 := hvk
      have hne : (deriveBuckets func prms).vk ≠ [] := by
        intro hnil
        rw [hnil] at hemp
        simp at hemp
      have hpos : 0 < (deriveBuckets func prms).vk.length := List.length_pos.mpr hne
      simp only [hpokVK, hkoVK, hvpseg, hself, List.nil_append, List.append_nil]
      omega

/-- The signature derived from the builtin `len`, used as the witness
input for the reserved-parameter theorem. -/
def lenParams : List Parameter :=
  [ { name := "self", kind := .POK, default := none },
    { name := "obj", kind := .POK, default := none },
    { name := "args", kind := .VP, default := none },
    { name := "invert", kind := .KO, default := some (PyVal.vBool false) },
    { name := "exception", kind := .KO, default := some PyVal.vNone },
    { name := "post_process", kind := .KO, default := some PyVal.vNone },
    { name := "message", kind := .KO, default := some PyVal.vNone },
    { name := "kwargs", kind := .VK, default := none } ]

/-- Witness for C4: the reserved-parameter theorem applied to the builtin
`len`. -/
theorem C4_reserved_witness :
    lenParams.filter (fun p => p.name == "invert")
        = [ { name := "invert", kind := .KO, default := some (PyVal.vBool false) } ] ∧
    lenParams.filter (fun p => p.name == "exception")
        = [ { name := "exception", kind := .KO, default := some PyVal.vNone } ] ∧
    lenParams.filter (fun p => p.name == "post_process")
        = [ { name := "post_process", kind := .KO, default := some PyVal.vNone } ] ∧
    lenParams.filter (fun p => p.name == "message")
        = [ { name := "message", kind := .KO, default := some PyVal.vNone } ] ∧
    (lenParams.filter (fun p => p.kind == .VP)).length = 1 ∧
    (lenParams.filter (fun p => p.kind == .VK)).length = 1 :=
  C4_reserved lenCallable [ { name := "obj", kind := .PO, default := none } ] lenParams []
    rfl (by decide) (by decide) (by decide) rfl

theorem deriveKo_def (func : Callable) (prms : List Parameter) :
    deriveKo func prms
      = (deriveBuckets func prms).ko ++
        [ { name := (_sanitize_name "invert" func (deriveBuckets func prms).ko).1,
            kind := .KO, default := some (PyVal.vBool false) },
          { name := (_sanitize_name "exception" func (deriveBuckets func prms).ko).1,
            kind := .KO, default := some PyVal.vNone },
          { name := (_sanitize_name "post_process" func (deriveBuckets func prms).ko).1,
            kind := .KO, default := some PyVal.vNone },
          { name := (_sanitize_name "message" func (deriveBuckets func prms).ko).1,
            kind := .KO, default := some PyVal.vNone } ] := rfl

theorem deriveWarnings_def (func : Callable) (prms : List Parameter) :
    deriveWarnings func prms
      = (_sanitize_name "invert" func (deriveBuckets func prms).ko).2
        ++ (_sanitize_name "exception" func (deriveBuckets func prms).ko).2
        ++ (_sanitize_name "post_process" func (deriveBuckets func prms).ko).2
        ++ (_sanitize_name "message" func (deriveBuckets func prms).ko).2 := rfl

/-- C5 (amended): for every callable whose native signature contains a
parameter named `invert` that the deriver places in the keyword-only
bucket — a keyword-only parameter, or a positional-or-keyword parameter
with a default (promoted to keyword-only) — a successful derivation
contains both the original `invert` parameter and a renamed reserved
parameter whose name extends `invert_` (underscore-suffixed until unique),
and a warning-level diagnostic is emitted.  (The original any-kind claim
is refuted by `C5_counterexample`: a required positional-or-keyword
`invert` stays outside the keyword-only bucket, is never renamed, and the
derivation raises instead.) -/
theorem C5_rename (func : Callable) (prms : List Parameter) (p0 : Parameter)
    (ps : List Parameter) (ws : List String)
    (hs : func.sig = some prms) (hmem : p0 ∈ prms) (hname : p0.name = "invert")
    (hkind : p0.kind = .KO ∨ (p0.kind = .POK ∧ p0.default.isSome = true))
    (hgen : generate_signature func = .ok (ps, ws)) :
    (∃ p ∈ ps, p.name = "invert") ∧
    (∃ p ∈ ps, p.kind = .KO ∧ p.default = some (PyVal.vBool false) ∧
       p.name ≠ "invert" ∧ "invert_".data <+: p.name.data) ∧
    ws ≠ [] := by
  obtain ⟨hps, hws, hval⟩ := generate_signature_ok hs hgen
  subst hps
  subst hws
  have hself : p0.name ≠ "self" := by
    rw [hname]
    decide
  obtain ⟨hcko, hcname⟩ := classifyPrm_KO_of ( _get_cls_annotation func) p0 hself hkind
  have hq : classifyPrm ( _get_cls_annotation func) p0 ∈ (deriveBuckets func prms).ko := by
    rw [deriveBuckets_ko]
    exact List.mem_filter.mpr ⟨List.mem_map.mpr ⟨p0, hmem, rfl⟩, by simp [hcko]⟩
  have hcol : nameMem "invert" (deriveBuckets func prms).ko = true :=
    nameMem_eq_true_iff.mpr ⟨_, hq, by rw [hcname, hname]⟩
  obtain ⟨hwne, t, ht⟩ :=
    sanitize_name_collision "invert" func (deriveBuckets func prms).ko hcol
  have h6 : ("invert" : String).length = 6 := rfl
  have h1 : ("_" : String).length = 1 := rfl
  have hrnlen : (_sanitize_name "invert" func (deriveBuckets func prms).ko).1.length
      = 7 + t.length := by
    rw [ht, String.length_append, String.length_append]
    omega
  refine ⟨?_, ?_, ?_⟩
  · refine ⟨classifyPrm ( _get_cls_annotation func) p0, ?_, by rw [hcname, hname]⟩
    rw [deriveParams_eq, deriveKo_def]
    simp only [List.mem_append]
    left
    right
    left
    exact hq
  · refine ⟨{ name := (_sanitize_name "invert" func (deriveBuckets func prms).ko).1,
              kind := .KO, default := some (PyVal.vBool false) }, ?_, rfl, rfl, ?_, ?_⟩
    · rw [deriveParams_eq, deriveKo_def]
      simp only [List.mem_append]
      left
      right
      right
      simp
    · intro hc
      have := congrArg String.length hc
      rw [hrnlen, h6] at this
      omega
    · show "invert_".data <+: (_sanitize_name "invert" func (deriveBuckets func prms).ko).1.data
      rw [ht, String.data_append]
      have hdd : ("invert" ++ "_" : String).data = "invert_".data := rfl
      rw [hdd]
      exact List.prefix_append _ _
  · rw [deriveWarnings_def]
    intro hnil
    rw [List.append_eq_nil, List.append_eq_nil, List.append_eq_nil] at hnil
    exact hwne hnil.1.1.1

/-- The signature derived from `def f(*, invert=None): ...`, used as the
witness input for the rename theorem. -/
def cInvertKoParams : List Parameter :=
  [ { name := "self", kind := .POK, default := none },
    { name := "args", kind := .VP, default := none },
    { name := "invert", kind := .KO, default := some PyVal.vNone },
    { name := "invert_", kind := .KO, default := some (PyVal.vBool false) },
    { name := "exception", kind := .KO, default := some PyVal.vNone },
    { name := "post_process", kind := .KO, default := some PyVal.vNone },
    { name := "message", kind := .KO, default := some PyVal.vNone },
    { name := "kwargs", kind := .VK, default := none } ]

/-- Witness for C5: the rename theorem applied to a callable with a
keyword-only `invert` parameter. -/
theorem C5_rename_witness :
    (∃ p ∈ cInvertKoParams, p.name = "invert") ∧
    (∃ p ∈ cInvertKoParams, p.kind = .KO ∧ p.default = some (PyVal.vBool false) ∧
       p.name ≠ "invert" ∧ "invert_".data <+: p.name.data) ∧
    ([ "The invert parameter is already defined; renaming new parameter to invert_" ]
      : List String) ≠ [] :=
  C5_rename cInvertKo [ { name := "invert", kind := .KO, default := some PyVal.vNone } ]
    { name := "invert", kind := .KO, default := some PyVal.vNone } cInvertKoParams
    [ "The invert parameter is already defined; renaming new parameter to invert_" ]
    rfl (by simp) rfl (Or.inl rfl) rfl

theorem prmToStr_ne_self (fn : String) (p : Parameter) (e : String)
    (hne : p.name ≠ "self") (h : prmToStr fn p = .ok e) : e ≠ "self" := by
  intro hc
  subst hc
  rw [prmToStr] at h
  rw [if_neg (by simpa using hne)] at h
  by_cases h2 : p.default.isSome = true
  · rw [if_pos h2] at h
    simp only [Except.ok.injEq] at h
    have hlen := congrArg String.length h
    rw [String.length_append, String.length_append] at hlen
    have h1 : ("=" : String).length = 1 := rfl
    have h4 : ("self" : String).length = 4 := rfl
    omega
  · rw [if_neg h2] at h
    cases hpk : p.kind
    · rw [hpk] at h
      simp only [_KIND_TO_STR, Except.ok.injEq] at h
      exact hne h
    · rw [hpk] at h
      simp only [_KIND_TO_STR, Except.ok.injEq] at h
      exact hne h
    · rw [hpk] at h
      simp only [_KIND_TO_STR, Except.ok.injEq] at h
      have hdata := congrArg String.data h
      rw [String.data_append] at hdata
      have hhead := congrArg (fun l => l.head?) hdata
      simp at hhead
    · rw [hpk] at h
      simp [_KIND_TO_STR] at h
    · rw [hpk] at h
      simp only [_KIND_TO_STR, Except.ok.injEq] at h
      have hdata := congrArg String.data h
      rw [String.data_append] at hdata
      have hhead := congrArg (fun l => l.head?) hdata
      simp at hhead

/-- C6 (amended): for every callable whose native signature uses `self`
as its placeholder, the rendered entries of a successfully derived and
rendered signature never contain the bare entry `self`: the synthetic
receiver parameter is the only parameter named `self` and it is rendered
as the supplied display name.  (The stronger no-substring claim is refuted
by `C6_counterexample`: the substring `self` can survive inside a longer
parameter name such as `selfish`.) -/
theorem C6_no_self_entry (func : Callable) (prms ps : List Parameter) (ws : List String)
    (entries : List String)
    (hs : func.sig = some prms)
    (hself : "self" ∈ prms.map (fun p => p.name))
    (hgen : generate_signature func = .ok (ps, ws))
    (hrender : exceptMapM (prmToStr "x") ps = .ok entries) :
    entries.head? = some "x" ∧ "self" ∉ entries := by
  obtain ⟨hps, hws, hval⟩ := generate_signature_ok hs hgen
  subst hps
  have hnd := (validateParams_nodup _ 0 false [] hval).1
  have hshape : ∃ tail, deriveParams func prms
      = { name := "self", kind := ParamKind.POK, default := none } :: tail := by
    rw [deriveParams_eq, deriveBuckets_pok]
    exact ⟨_, rfl⟩
  obtain ⟨tail, htail⟩ := hshape
  rw [htail, List.map_cons, List.nodup_cons] at hnd
  obtain ⟨hselfnot, _⟩ := hnd
  rw [htail] at hrender
  obtain ⟨b, es2, hfb, hrest, rfl⟩ := exceptMapM_cons_ok hrender
  have hb : b = "x" := by
    rw [prmToStr] at hfb
    rw [if_pos (by simp)] at hfb
    cases hfb
    rfl
  subst hb
  refine ⟨rfl, ?_⟩
  intro hcmem
  rcases List.mem_cons.mp hcmem with hx | hmm
  · exact absurd hx (by decide)
  · obtain ⟨a, ha, hfa⟩ := exceptMapM_ok_mem hrest _ hmm
    have hane : a.name ≠ "self" := by
      intro hc
      exact hselfnot (List.mem_map.mpr ⟨a, ha, hc⟩)
    exact (prmToStr_ne_self "x" a "self" hane hfa) rfl

/-- The signature derived from `def f(self, a): ...`, used as the witness
input for the rendered-entries theorem. -/
def cSelfAParams : List Parameter :=
  [ { name := "self", kind := .POK, default := none },
    { name := "function", kind := .POK, default := none },
    { name := "a", kind := .POK, default := none },
    { name := "args", kind := .VP, default := none },
    { name := "invert", kind := .KO, default := some (PyVal.vBool false) },
    { name := "exception", kind := .KO, default := some PyVal.vNone },
    { name := "post_process", kind := .KO, default := some PyVal.vNone },
    { name := "message", kind := .KO, default := some PyVal.vNone },
    { name := "kwargs", kind := .VK, default := none } ]

/-- The rendered entries of `cSelfAParams` under the display name `x`. -/
def cSelfAEntries : List String :=
  [ "x", "function", "a", "*args", "invert=invert", "exception=exception",
    "post_process=post_process", "message=message", "**kwargs" ]

/-- Witness for C6: the rendered-entries theorem applied to
`def f(self, a): ...`. -/
theorem C6_no_self_entry_witness :
    cSelfAEntries.head? = some "x" ∧ "self" ∉ cSelfAEntries :=
  C6_no_self_entry cSelfA
    [ { name := "self", kind := .POK, default := none },
      { name := "a", kind := .POK, default := none } ]
    cSelfAParams [] cSelfAEntries rfl (by decide) rfl rfl

theorem bindPok_ok_split :
    ∀ (prms2 : List Parameter) (pos : List PyVal) (kw : List (String × PyVal))
      (vals rem : List PyVal),
      (∀ q ∈ kw, ∀ p ∈ prms2, q.1 ≠ p.name) →
      bindPok prms2 pos kw = .ok (vals, rem) →
      pos = vals ++ rem ∧ vals.length = prms2.length := by
  intro prms2
  induction prms2 with
  | nil =>
    intro pos kw vals rem hdisj h
    rw [bindPok] at h
    simp only [Except.ok.injEq, Prod.mk.injEq] at h
    obtain ⟨h1, h2⟩ := h
    subst h2
    rw [← h1]
    exact ⟨rfl, rfl⟩
  | cons p pt ih =>
    intro pos kw vals rem hdisj h
    cases pos with
    | nil =>
      rw [bindPok] at h
      have hfind : kw.find? (fun q => q.1 == p.name) = none := by
        rw [List.find?_eq_none]
        intro q hq
        simp [hdisj q hq p (List.mem_cons_self _ _)]
      simp [hfind] at h
    | cons v rest =>
      rw [bindPok] at h
      have hanyf : (kw.any fun q => q.1 == p.name) = false := by
        rw [List.any_eq_false]
        intro q hq
        simp [hdisj q hq p (List.mem_cons_self _ _)]
      rw [if_neg (by simp [hanyf])] at h
      cases hrec : bindPok pt rest kw with
      | error e =>
        simp [hrec] at h
      | ok pr =>
        obtain ⟨vals2, rem2⟩ := pr
        simp only [hrec, Except.ok.injEq, Prod.mk.injEq] at h
        obtain ⟨h1, h2⟩ := h
        obtain ⟨hsplit, hlen⟩ :=
          ih rest kw vals2 rem2 (fun q hq p2 hp2 => hdisj q hq p2 (List.mem_cons_of_mem _ hp2))
            hrec
        rw [← h1, ← h2, hsplit]
        exact ⟨rfl, by simp [hlen]⟩

theorem zip_filterMap_vals :
    ∀ (prms2 : List Parameter) (vals : List PyVal),
      prms2.length = vals.length → (∀ p ∈ prms2, p.default = none) →
      ((prms2.zip vals).filterMap fun pv =>
        if pv.1.default.isNone then some pv.2 else none) = vals := by
  intro prms2
  induction prms2 with
  | nil =>
    intro vals h _
    cases vals with
    | nil => rfl
    | cons v vt => simp at h
  | cons p pt ih =>
    intro vals h hdef
    cases vals with
    | nil => simp at h
    | cons v vt =>
      rw [List.zip_cons_cons, List.filterMap_cons]
      have hd : p.default = none := hdef p (List.mem_cons_self _ _)
      simp only [hd, Option.isNone_none, if_pos]
      rw [ih vt (by simpa using h) (fun q hq => hdef q (List.mem_cons_of_mem _ hq))]

theorem zip_filterMap_kw_nil (prms2 : List Parameter) (vals : List PyVal)
    (hdef : ∀ p ∈ prms2, p.default = none) :
    ((prms2.zip vals).filterMap fun pv =>
      if pv.1.default.isSome then some (pv.1.name, pv.2) else none) = [] := by
  rw [List.filterMap_eq_nil_iff]
  intro pv hpv
  have hp1 := (List.of_mem_zip hpv).1
  simp [hdef pv.1 hp1]

theorem find_self_of_nodup {kw : List (String × PyVal)} {q : String × PyVal}
    (hnd : (kw.map Prod.fst).Nodup) (hq : q ∈ kw) :
    kw.find? (fun r => r.1 == q.1) = some q := by
  induction kw with
  | nil => cases hq
  | cons a t ih =>
    rw [List.map_cons, List.nodup_cons] at hnd
    obtain ⟨hna, hndt⟩ := hnd
    rcases List.mem_cons.mp hq with rfl | hqt
    · rw [List.find?_cons_of_pos _ (by simp)]
    · rw [List.find?_cons_of_neg, ih hndt hqt]
      simp only [beq_iff_eq]
      intro hc
      apply hna
      exact List.mem_map.mpr ⟨q, hqt, hc.symm⟩

theorem koValue_default (kw : List (String × PyVal)) (nm : String) (d : PyVal) :
    koValue kw { name := nm, kind := .KO, default := some d } = kwLookup kw nm d := by
  cases hf : kw.find? (fun q => q.1 == nm) <;>
    simp only [koValue, kwLookup, hf]

theorem create_ok_components {func : Callable} {g : GeneratedFunc} {s : String}
    (h : _create_assertion_func func = .ok (g, s)) :
    ∃ ws, generate_signature func = .ok (g.params, ws) ∧ g.func = func ∧
      _signature_to_str g.params (some "func") = .ok s := by
  rw [_create_assertion_func] at h
  cases hgen : generate_signature func with
  | error e => simp [hgen] at h
  | ok pr =>
    obtain ⟨sgn, ws⟩ := pr
    simp only [hgen] at h
    cases hstr : _signature_to_str sgn (some "func") with
    | error e => simp [hstr] at h
    | ok s2 =>
      simp only [hstr] at h
      cases hnm : func.name with
      | none => simp [hnm] at h
      | some fn =>
        simp only [hnm, Except.ok.injEq, Prod.mk.injEq] at h
        obtain ⟨hg, hs2⟩ := h
        subst hs2
        subst hg
        exact ⟨ws, rfl, rfl, hstr⟩

theorem bind_ok_components {ct : Bool} {func : Callable} {nm : Option String}
    {bm : BoundMethod} (h : bind_callable ct func nm = .ok bm) :
    ∃ ws s, generate_signature func = .ok (bm.genFunc.params, ws) ∧
      bm.genFunc.func = func ∧
      _signature_to_str bm.genFunc.params (some "func") = .ok s := by
  rw [bind_callable.eq_def] at h
  cases hattr : (match nm with | some n => some n | none => func.name) with
  | none => simp [hattr] at h
  | some attr =>
    simp only [hattr] at h
    cases hcr : _create_assertion_func func with
    | error e => simp [hcr] at h
    | ok fo =>
      obtain ⟨g, s0⟩ := fo
      simp only [hcr] at h
      cases hnm2 : func.name with
      | none => simp [hnm2] at h
      | some fn =>
        simp only [hnm2] at h
        split at h
        · exact absurd h (by simp)
        · simp only [Except.ok.injEq] at h
          obtain ⟨ws, hgen, hfunc, hstr⟩ := create_ok_components hcr
          subst h
          exact ⟨ws, s0, hgen, hfunc, hstr⟩

theorem filter_append4_first (A B C D : List Parameter) (pred : Parameter → Bool)
    (hA : ∀ q ∈ A, pred q = true) (hB : ∀ q ∈ B, pred q = false)
    (hC : ∀ q ∈ C, pred q = false) (hD : ∀ q ∈ D, pred q = false) :
    (A ++ B ++ C ++ D).filter pred = A := by
  rw [List.filter_append, List.filter_append, List.filter_append]
  rw [List.filter_eq_self.mpr (fun a ha => by simp [hA a ha]),
    List.filter_eq_nil_iff.mpr (fun a ha => by simp [hB a ha]),
    List.filter_eq_nil_iff.mpr (fun a ha => by simp [hC a ha]),
    List.filter_eq_nil_iff.mpr (fun a ha => by simp [hD a ha])]
  simp

theorem filter_append4_third (A B C D : List Parameter) (pred : Parameter → Bool)
    (hA : ∀ q ∈ A, pred q = false) (hB : ∀ q ∈ B, pred q = false)
    (hC : ∀ q ∈ C, pred q = true) (hD : ∀ q ∈ D, pred q = false) :
    (A ++ B ++ C ++ D).filter pred = C := by
  rw [List.filter_append, List.filter_append, List.filter_append]
  rw [List.filter_eq_nil_iff.mpr (fun a ha => by simp [hA a ha]),
    List.filter_eq_nil_iff.mpr (fun a ha => by simp [hB a ha]),
    List.filter_eq_self.mpr (fun a ha => by simp [hC a ha]),
    List.filter_eq_nil_iff.mpr (fun a ha => by simp [hD a ha])]
  simp

/-- C8 (amended): binding a callable onto a plain class and invoking the
installed method produces exactly one `assert_` call on the receiver that
forwards the original callable first, the exact positional arguments the
caller supplied in order, every caller-supplied keyword argument verbatim,
and the four reserved parameters with the caller-supplied value or their
documented default.  The hypotheses restrict to the benign case: the
callable has no reserved-name collision, every positional-or-keyword
parameter of the generated signature is required (no positional defaults,
whose bytecode-dependent transplantation the source leaves unreliable),
the caller does not pass keyword arguments aimed at positional parameters,
and keyword names are not repeated.  (The exactness of the claim is
refuted by `C8_counterexample`: default values of omitted optional
parameters of the original callable are forwarded as additional
keywords.) -/
theorem C8_forwarding (func : Callable) (prms : List Parameter) (nmArg : Option String)
    (bm : BoundMethod) (recv : PyVal) (pos : List PyVal) (kw : List (String × PyVal))
    (c : AssertCall)
    (hs : func.sig = some prms)
    (hres : ∀ p ∈ prms, p.name ∉ reservedNames)
    (hbind : bind_callable true func nmArg = .ok bm)
    (hnodef : ∀ p ∈ bm.genFunc.params, p.kind = .POK → p.default = none)
    (hdisj : ∀ q ∈ kw, ∀ p ∈ bm.genFunc.params, p.kind = .POK → q.1 ≠ p.name)
    (hkwnd : (kw.map Prod.fst).Nodup)
    (hinv : invokeGenerated bm.genFunc recv pos kw = .ok c) :
    c.recv = recv ∧ c.funcArg = func ∧ c.posArgs = pos ∧
    (∀ q ∈ kw, q ∈ c.kwArgs) ∧
    ("invert", kwLookup kw "invert" (PyVal.vBool false)) ∈ c.kwArgs ∧
    ("exception", kwLookup kw "exception" PyVal.vNone) ∈ c.kwArgs ∧
    ("post_process", kwLookup kw "post_process" PyVal.vNone) ∈ c.kwArgs ∧
    ("message", kwLookup kw "message" PyVal.vNone) ∈ c.kwArgs := by
  obtain ⟨ws, s, hgen, hfunc, _hstr⟩ := bind_ok_components hbind
  obtain ⟨hps, _hws, hval⟩ := generate_signature_ok hs hgen
  have hKo := deriveKo_eq func prms hres
  have hpokRaw : ∀ q ∈ (prms.map (classifyPrm ( _get_cls_annotation func))).filter
      (fun q => q.kind == .POK || q.kind == .PO), q.kind = .POK := by
    intro q hq
    exact deriveBuckets_pok_kinds func prms q
      (by rw [deriveBuckets_pok]; exact List.mem_cons_of_mem _ hq)
  have hvpRaw : ∀ q ∈ (if (deriveBuckets func prms).vp.isEmpty
      then [ ({ name := "args", kind := .VP, default := none } : Parameter) ]
      else (deriveBuckets func prms).vp), q.kind = .VP := by
    intro q hq
    split at hq
    · rw [List.mem_singleton] at hq
      subst hq
      rfl
    · exact deriveBuckets_vp_kinds func prms q hq
  have hvkRaw : ∀ q ∈ (if (deriveBuckets func prms).vk.isEmpty
      then [ ({ name := "kwargs", kind := .VK, default := none } : Parameter) ]
      else (deriveBuckets func prms).vk), q.kind = .VK := by
    intro q hq
    split at hq
    · rw [List.mem_singleton] at hq
      subst hq
      rfl
    · exact deriveBuckets_vk_kinds func prms q hq
  have hkoRaw := deriveKo_kinds func prms
  have hPeq : bm.genFunc.params
      = { name := "self", kind := ParamKind.POK, default := none }
        :: ((prms.map (classifyPrm ( _get_cls_annotation func))).filter
              (fun q => q.kind == .POK || q.kind == .PO)
            ++ (if (deriveBuckets func prms).vp.isEmpty
                then [ { name := "args", kind := .VP, default := none } ]
                else (deriveBuckets func prms).vp)
            ++ deriveKo func prms
            ++ (if (deriveBuckets func prms).vk.isEmpty
                then [ { name := "kwargs", kind := .VK, default := none } ]
                else (deriveBuckets func prms).vk)) := by
    rw [hps, deriveParams_eq, deriveBuckets_pok]
    simp [List.append_assoc]
  have hfPOK : (((prms.map (classifyPrm ( _get_cls_annotation func))).filter
              (fun q => q.kind == .POK || q.kind == .PO)
            ++ (if (deriveBuckets func prms).vp.isEmpty
                then [ { name := "args", kind := .VP, default := none } ]
                else (deriveBuckets func prms).vp)
            ++ deriveKo func prms
            ++ (if (deriveBuckets func prms).vk.isEmpty
                then [ { name := "kwargs", kind := .VK, default := none } ]
                else (deriveBuckets func prms).vk)).filter
        (fun p => p.kind == ParamKind.POK))
      = (prms.map (classifyPrm ( _get_cls_annotation func))).filter
          (fun q => q.kind == .POK || q.kind == .PO) :=
    filter_append4_first _ _ _ _ _
      (fun q hq => by simp [hpokRaw q hq]) (fun q hq => by simp [hvpRaw q hq])
      (fun q hq => by simp [hkoRaw q hq]) (fun q hq => by simp [hvkRaw q hq])
  have hfKO : (((prms.map (classifyPrm ( _get_cls_annotation func))).filter
              (fun q => q.kind == .POK || q.kind == .PO)
            ++ (if (deriveBuckets func prms).vp.isEmpty
                then [ { name := "args", kind := .VP, default := none } ]
                else (deriveBuckets func prms).vp)
            ++ deriveKo func prms
            ++ (if (deriveBuckets func prms).vk.isEmpty
                then [ { name := "kwargs", kind := .VK, default := none } ]
                else (deriveBuckets func prms).vk)).filter
        (fun p => p.kind == ParamKind.KO))
      = deriveKo func prms :=
    filter_append4_third _ _ _ _ _
      (fun q hq => by simp [hpokRaw q hq]) (fun q hq => by simp [hvpRaw q hq])
      (fun q hq => by simp [hkoRaw q hq]) (fun q hq => by simp [hvkRaw q hq])
  rw [invokeGenerated] at hinv
  rw [hPeq] at hinv
  simp only [List.cons.injEq] at hinv
  simp only [hfPOK, hfKO] at hinv
  by_cases hselfkw : (kw.any fun q => q.1 == "self") = true
  · rw [if_pos hselfkw] at hinv
    exact absurd hinv (by simp)
  · rw [if_neg hselfkw] at hinv
    have hmemP : ∀ p ∈ (prms.map (classifyPrm ( _get_cls_annotation func))).filter
        (fun q => q.kind == .POK || q.kind == .PO), p ∈ bm.genFunc.params := by
      intro p hp
      rw [hPeq]
      exact List.mem_cons_of_mem _
        (List.mem_append.mpr (Or.inl (List.mem_append.mpr (Or.inl
          (List.mem_append.mpr (Or.inl hp))))))
    have hdisjP : ∀ q ∈ kw, ∀ p ∈ (prms.map (classifyPrm ( _get_cls_annotation func))).filter
        (fun q => q.kind == .POK || q.kind == .PO), q.1 ≠ p.name := by
      intro q hq p hp
      exact hdisj q hq p (hmemP p hp) (hpokRaw p hp)
    have hdefP : ∀ p ∈ (prms.map (classifyPrm ( _get_cls_annotation func))).filter
        (fun q => q.kind == .POK || q.kind == .PO), p.default = none := by
      intro p hp
      exact hnodef p (hmemP p hp) (hpokRaw p hp)
    cases hbp : bindPok ((prms.map (classifyPrm ( _get_cls_annotation func))).filter
        (fun q => q.kind == .POK || q.kind == .PO)) pos kw with
    | error e =>
      simp [hbp] at hinv
    | ok pr =>
      obtain ⟨pokVals, varArgs⟩ := pr
      obtain ⟨hsplit, hlen⟩ := bindPok_ok_split _ pos kw pokVals varArgs hdisjP hbp
      simp only [hbp, Except.ok.injEq] at hinv
      subst hinv
      refine ⟨rfl, hfunc, ?_, ?_, ?_, ?_, ?_, ?_⟩
      · show ((((prms.map (classifyPrm ( _get_cls_annotation func))).filter
            (fun q => q.kind == .POK || q.kind == .PO)).zip pokVals).filterMap fun pv =>
              if pv.1.default.isNone then some pv.2 else none) ++ varArgs = pos
        rw [zip_filterMap_vals _ _ hlen.symm hdefP, ← hsplit]
      · intro q hq
        by_cases hqko : ∃ p ∈ deriveKo func prms, p.name = q.1
        · obtain ⟨p, hp, hpname⟩ := hqko
          have hfind : kw.find? (fun r => r.1 == p.name) = some q := by
            rw [hpname]
            exact find_self_of_nodup hkwnd hq
          have hkv : koValue kw p = q.2 := by
            simp only [koValue, hfind]
          refine List.mem_append.mpr (Or.inl (List.mem_append.mpr (Or.inr ?_)))
          have : (p.name, koValue kw p) ∈ (deriveKo func prms).map
              (fun p => (p.name, koValue kw p)) := List.mem_map.mpr ⟨p, hp, rfl⟩
          rw [hkv, hpname] at this
          simpa using this
        · refine List.mem_append.mpr (Or.inr ?_)
          refine List.mem_filter.mpr ⟨hq, ?_⟩
          have h1 : (((prms.map (classifyPrm ( _get_cls_annotation func))).filter
              (fun q => q.kind == .POK || q.kind == .PO)).any
                fun p => p.name == q.1) = false := by
            rw [List.any_eq_false]
            intro p hp
            simp only [beq_iff_eq]
            intro hc
            exact hdisjP q hq p hp hc.symm
          have h2 : ((deriveKo func prms).any fun p => p.name == q.1) = false := by
            rw [List.any_eq_false]
            intro p hp
            simp only [beq_iff_eq]
            intro hc
            exact hqko ⟨p, hp, hc⟩
          simp [h1, h2]
      · refine List.mem_append.mpr (Or.inl (List.mem_append.mpr (Or.inr ?_)))
        rw [hKo, List.map_append]
        refine List.mem_append.mpr (Or.inr ?_)
        simp [koValue_default]
      · refine List.mem_append.mpr (Or.inl (List.mem_append.mpr (Or.inr ?_)))
        rw [hKo, List.map_append]
        refine List.mem_append.mpr (Or.inr ?_)
        simp [koValue_default]
      · refine List.mem_append.mpr (Or.inl (List.mem_append.mpr (Or.inr ?_)))
        rw [hKo, List.map_append]
        refine List.mem_append.mpr (Or.inr ?_)
        simp [koValue_default]
      · refine List.mem_append.mpr (Or.inl (List.mem_append.mpr (Or.inr ?_)))
        rw [hKo, List.map_append]
        refine List.mem_append.mpr (Or.inr ?_)
        simp [koValue_default]

/-- The bound method produced by binding `def f(x): ...` onto a class
(the fallback branch is unreachable and only satisfies totality). -/
def fXBound : BoundMethod :=
  match bind_callable true fX none with
  | .ok bm => bm
  | .error _ =>
    { attrName := "", genFunc := { name := "", params := [], func := fX },
      doc := "", annotations := [], boundToInstance := false }

/-- The `assert_` call produced by invoking the method bound from
`def f(x): ...` with positionals `1, 2` and keywords `y=z, invert=True`. -/
def cXCall : AssertCall :=
  match invokeGenerated fXBound.genFunc (PyVal.vInt 0) [ PyVal.vInt 1, PyVal.vInt 2 ]
      [ ("y", PyVal.vStr "z"), ("invert", PyVal.vBool true) ] with
  | .ok c => c
  | .error _ => { recv := PyVal.vNone, funcArg := fX, posArgs := [], kwArgs := [] }

/-- Witness for C8: the forwarding theorem applied to `def f(x): ...`
invoked with two positionals and keywords `y=z, invert=True`. -/
theorem C8_forwarding_witness :
    cXCall.recv = PyVal.vInt 0 ∧ cXCall.funcArg = fX ∧
    cXCall.posArgs = [ PyVal.vInt 1, PyVal.vInt 2 ] ∧
    (∀ q ∈ ([ ("y", PyVal.vStr "z"), ("invert", PyVal.vBool true) ]
        : List (String × PyVal)), q ∈ cXCall.kwArgs) ∧
    ("invert", kwLookup [ ("y", PyVal.vStr "z"), ("invert", PyVal.vBool true) ]
        "invert" (PyVal.vBool false)) ∈ cXCall.kwArgs ∧
    ("exception", kwLookup [ ("y", PyVal.vStr "z"), ("invert", PyVal.vBool true) ]
        "exception" PyVal.vNone) ∈ cXCall.kwArgs ∧
    ("post_process", kwLookup [ ("y", PyVal.vStr "z"), ("invert", PyVal.vBool true) ]
        "post_process" PyVal.vNone) ∈ cXCall.kwArgs ∧
    ("message", kwLookup [ ("y", PyVal.vStr "z"), ("invert", PyVal.vBool true) ]
        "message" PyVal.vNone) ∈ cXCall.kwArgs :=
  C8_forwarding fX [ { name := "x", kind := .POK, default := none } ] none fXBound
    (PyVal.vInt 0) [ PyVal.vInt 1, PyVal.vInt 2 ]
    [ ("y", PyVal.vStr "z"), ("invert", PyVal.vBool true) ] cXCall
    rfl (by decide) rfl (by decide) (by decide) (by decide) rfl
